import Mathlib

/-!
# Blocknet `rpcmisc.cpp`: multisig redeem scripts, message verification, trade scan,
address description

A shallow embedding of the algorithms of `src/rpcmisc.cpp`
(`_createmultisig_redeemScript`, `verifymessage`, `gettradingdata`, `validateaddress`
with `DescribeAddressVisitor`) together with the collaborators they call.
Collaborators whose code lives in other files of the node (address codec, wallet key
store, ownership flags, curve check, hex and base64 codecs, block storage,
`TxOutToCurrencyPair`) are fields of an environment structure, so the results hold
for all of their behaviours.
-/

namespace RpcMisc

/-! ## Data model -/

/-- A byte vector (`std::vector<unsigned char>`); every entry stands for one byte. -/
abbrev Bytes := List Nat

/-- The 160-bit identifier of a public key (`CKeyID`). -/
abbrev CKeyID := Bytes

/-- The 160-bit identifier of a script (`CScriptID`). -/
abbrev CScriptID := Bytes

/-- The closed variant `CTxDestination` held by a `CBitcoinAddress`;
`CNoDestination` is what an address that is not valid holds. -/
inductive CTxDestination
  | CNoDestination
  | KeyID (id : CKeyID)
  | ScriptID (id : CScriptID)
deriving DecidableEq, Repr

/-- The bytes of a public key as `CPubKey` stores them; the key that is not valid
(`Invalidate()`) is the one with no bytes. -/
structure CPubKey where
  vch : Bytes
deriving DecidableEq, Repr

/-- Modelled from the spec: `CPubKey::GetLen` of `pubkey.h`, which is not under src/.
The encoded length belonging to a header byte: 33 bytes for a compressed key
(header 2 or 3), 65 bytes for an uncompressed one (header 4, 6 or 7), 0 otherwise. -/
def CPubKey.GetLen (chHeader : Nat) : Nat :=
  if chHeader = 2 ∨ chHeader = 3 then 33
  else if chHeader = 4 ∨ chHeader = 6 ∨ chHeader = 7 then 65
  else 0

/-- Modelled from the spec: the "correct encoded length" half of the validity
predicate of a PublicKey (`CPubKey::Set` / `CPubKey::IsValid`, not under src/):
there is a header byte and the length is the one the header announces. -/
def CPubKey.wellFormed (v : Bytes) : Bool :=
  match v with
  | [] => false
  | h :: _ => CPubKey.GetLen h != 0 && CPubKey.GetLen h == v.length

/-- Modelled from the spec: the constructor `CPubKey(const std::vector<unsigned char>&)`
(not under src/): keeps the bytes when their length fits the header, and is the
key that is not valid otherwise. -/
def CPubKey.ofVector (v : Bytes) : CPubKey :=
  if CPubKey.wellFormed v then ⟨v⟩ else ⟨[]⟩

/-- `CPubKey::IsValid`: the key has a size greater than zero. -/
def CPubKey.IsValid (k : CPubKey) : Bool := CPubKey.wellFormed k.vch

/-- `ToByteVector(key)`: the bytes `key.begin() .. key.end()`. -/
def ToByteVector (k : CPubKey) : Bytes := k.vch

/-- The wallet key store as `_createmultisig_redeemScript` uses it:
`GetPubKey(keyID, vchPubKey)` either finds a key or returns false. -/
structure CWallet where
  GetPubKey : CKeyID → Option CPubKey

/-- The collaborators of `_createmultisig_redeemScript`. -/
structure KeyEnv where
  /-- The global `pwalletMain`; `none` when the pointer is null or the node is built
  without `ENABLE_WALLET` (the address case is then compiled out). -/
  pwalletMain : Option CWallet
  /-- The destination of `CBitcoinAddress(str)`: `CNoDestination` when `IsValid()` is false. -/
  decodeAddress : String → CTxDestination
  /-- The function `IsHex` of the string utilities. -/
  IsHex : String → Bool
  /-- The function `ParseHex` of the string utilities. -/
  ParseHex : String → Bytes
  /-- The curve check inside `CPubKey::IsFullyValid`. -/
  onCurve : Bytes → Bool

/-- `CPubKey::IsFullyValid`: valid encoding and a point of the curve. -/
def CPubKey.IsFullyValid (env : KeyEnv) (k : CPubKey) : Bool :=
  k.IsValid && env.onCurve k.vch

/-- `CBitcoinAddress::IsValid`. -/
def addressIsValid (d : CTxDestination) : Bool :=
  match d with
  | .CNoDestination => false
  | _ => true

/-- `CBitcoinAddress::GetKeyID`: succeeds for a valid key-hash address only. -/
def addressGetKeyID (d : CTxDestination) : Option CKeyID :=
  match d with
  | .KeyID id => some id
  | _ => none

/-- The failures the modelled functions raise; the comment of each gives the message
of the `runtime_error` or `JSONRPCError` thrown in the source. -/
inductive Failure
  /-- The help text, thrown on `fHelp` or a wrong number of parameters. -/
  | help
  /-- "a multisignature address must require at least one key to redeem" -/
  | insufficientRequirement
  /-- "not enough keys supplied (got %u keys, but need at least %d to redeem)" -/
  | notEnoughKeys (got : Nat) (need : Int)
  /-- "Number of addresses involved in the multisignature address creation > 16" -/
  | tooManyKeys
  /-- "%s does not refer to a key" -/
  | notAKey (ks : String)
  /-- "no full public key for address %s" -/
  | noFullPublicKey (ks : String)
  /-- " Invalid public key: " + ks -/
  | invalidPublicKey (ks : String)
  /-- "redeemScript exceeds size limit: %d > %d" -/
  | scriptTooLarge (size limit : Nat)
  /-- `JSONRPCError(RPC_TYPE_ERROR, "Invalid address")` -/
  | invalidAddress
  /-- `JSONRPCError(RPC_TYPE_ERROR, "Address does not refer to key")` -/
  | notKeyAddress
  /-- `JSONRPCError(RPC_INVALID_ADDRESS_OR_KEY, "Malformed base64 encoding")` -/
  | malformedBase64
  /-- `JSONRPCError(RPC_TYPE_ERROR, "Expected type ..., got ...")` of `RPCTypeCheck`,
  for the parameter at the given position. -/
  | typeError (position : Nat)
  /-- The `runtime_error` "value type is ... not ..." of a json_spirit `get_*` accessor. -/
  | badValueType
  /-- No thrown failure: the null `pwalletMain` is dereferenced, the behaviour of the
  program is undefined from there and the model stops. -/
  | nullPointerDereference
deriving DecidableEq, Repr

/-! ## Scripts -/

/-- Opcode `OP_PUSHDATA1`. -/
def OP_PUSHDATA1 : Nat := 0x4c
/-- Opcode `OP_PUSHDATA2`. -/
def OP_PUSHDATA2 : Nat := 0x4d
/-- Opcode `OP_PUSHDATA4`. -/
def OP_PUSHDATA4 : Nat := 0x4e
/-- Opcode `OP_1`. -/
def OP_1 : Nat := 0x51
/-- Opcode `OP_16`. -/
def OP_16 : Nat := 0x60
/-- Opcode `OP_CHECKMULTISIG`. -/
def OP_CHECKMULTISIG : Nat := 0xae

/-- Modelled from the spec: the constant `MAX_SCRIPT_ELEMENT_SIZE` of `script/script.h`
(not under src/), "the protocol's maximum script size": 520 bytes. -/
def MAX_SCRIPT_ELEMENT_SIZE : Nat := 520

/-- Modelled from the spec: `CScript::EncodeOP_N` (not under src/), the opcode that
pushes the small number `n`: `OP_0` for 0, `OP_1 + n - 1` otherwise. -/
def EncodeOP_N (n : Int) : Nat :=
  if n = 0 then 0 else ((OP_1 : Int) + n - 1).toNat

/-- Modelled from the spec: what `CScript::operator<<(const std::vector<unsigned char>&)`
(not under src/) appends for a byte vector: a push opcode with the length, then the bytes. -/
def pushBytes (b : Bytes) : Bytes :=
  if b.length < OP_PUSHDATA1 then b.length :: b
  else if b.length ≤ 0xff then OP_PUSHDATA1 :: b.length :: b
  else if b.length ≤ 0xffff then OP_PUSHDATA2 :: b.length % 256 :: b.length / 256 :: b
  else OP_PUSHDATA4 :: b.length % 256 :: b.length / 256 % 256 :: b.length / 65536 % 256
    :: b.length / 16777216 % 256 :: b

/-- Modelled from the spec: `GetScriptForMultisig` of `script/standard.cpp` (not under
src/), "push nRequired, push each key in order, push keyInputs.size(), terminate with
the multisig-check operation". -/
def GetScriptForMultisig (nRequired : Int) (keys : List CPubKey) : Bytes :=
  (keys.foldl (fun script key => script ++ pushBytes (ToByteVector key)) [EncodeOP_N nRequired])
    ++ [EncodeOP_N keys.length, OP_CHECKMULTISIG]

/-- The conversion `(int)keys.size()`: the size reduced to a signed 32-bit integer. -/
def toInt32 (n : Int) : Int := (n + 2147483648) % 4294967296 - 2147483648

/-! ## `_createmultisig_redeemScript` -/

/-- The condition `pwalletMain && address.IsValid()` that selects
"Case 1: BlocknetDX address" for the key string `ks`. -/
def addressCaseTaken (env : KeyEnv) (ks : String) : Bool :=
  env.pwalletMain.isSome && addressIsValid (env.decodeAddress ks)

/-- The body of the loop over `keys` in `_createmultisig_redeemScript`: the public key
stored into `pubkeys[i]` for the key string `ks`, or the failure thrown. -/
def resolveKey (env : KeyEnv) (ks : String) : Except Failure CPubKey :=
  match env.pwalletMain with
  | some wallet =>
    if addressIsValid (env.decodeAddress ks) then
      match addressGetKeyID (env.decodeAddress ks) with
      | none => .error (.notAKey ks)
      | some keyID =>
        match wallet.GetPubKey keyID with
        | none => .error (.noFullPublicKey ks)
        | some vchPubKey =>
          if !vchPubKey.IsFullyValid env then .error (.invalidPublicKey ks)
          else .ok vchPubKey
    else if env.IsHex ks then
      if !(CPubKey.ofVector (env.ParseHex ks)).IsFullyValid env then .error (.invalidPublicKey ks)
      else .ok (CPubKey.ofVector (env.ParseHex ks))
    else .error (.invalidPublicKey ks)
  | none =>
    if env.IsHex ks then
      if !(CPubKey.ofVector (env.ParseHex ks)).IsFullyValid env then .error (.invalidPublicKey ks)
      else .ok (CPubKey.ofVector (env.ParseHex ks))
    else .error (.invalidPublicKey ks)

/-- The loop `for (i = 0; i < keys.size(); i++)`: keys are resolved in input order and
the first failure leaves the function. -/
def gatherPubKeys (env : KeyEnv) : List String → Except Failure (List CPubKey)
  | [] => .ok []
  | ks :: rest =>
    match resolveKey env ks with
    | .error e => .error e
    | .ok key =>
      match gatherPubKeys env rest with
      | .error e => .error e
      | .ok keys => .ok (key :: keys)

/-- The function `_createmultisig_redeemScript`, with `params[0].get_int()` passed as
`nRequired` and the strings of `params[1].get_array()` passed as `keys`. -/
def _createmultisig_redeemScript (env : KeyEnv) (nRequired : Int) (keys : List String) :
    Except Failure Bytes :=
  if nRequired < 1 then .error .insufficientRequirement
  else if toInt32 keys.length < nRequired then .error (.notEnoughKeys keys.length nRequired)
  else if keys.length > 16 then .error .tooManyKeys
  else
    match gatherPubKeys env keys with
    | .error e => .error e
    | .ok pubkeys =>
      let result := GetScriptForMultisig nRequired pubkeys
      if result.length > MAX_SCRIPT_ELEMENT_SIZE then
        .error (.scriptTooLarge result.length MAX_SCRIPT_ELEMENT_SIZE)
      else .ok result

/-- The rule of key resolution, stated directly: whether `k` is the key used for the
key string `ks`.  A string taken as an address (a wallet is present and the string is a
valid address) stands for the key the key store holds for its key hash; every other
string stands for the key its hex digits encode; in both cases the key has to be fully
valid. -/
def keyUsed (env : KeyEnv) (ks : String) (k : CPubKey) : Bool :=
  k.IsFullyValid env &&
    (if addressCaseTaken env ks then
      match env.pwalletMain, addressGetKeyID (env.decodeAddress ks) with
      | some wallet, some keyID => decide (wallet.GetPubKey keyID = some k)
      | _, _ => false
    else env.IsHex ks && decide (k = CPubKey.ofVector (env.ParseHex ks)))

/-! ## Reading a multisig script back -/

/-- The small number an opcode `OP_1 .. OP_16` pushes. -/
def DecodeOP_N (op : Nat) : Option Int :=
  if OP_1 ≤ op ∧ op ≤ OP_16 then some ((op : Int) - (OP_1 - 1)) else none

/-- Reads direct pushes of 33 or 65 bytes from the front of a script for as long as
there are any; returns the keys read and the rest of the script. -/
def readPubKeys : Nat → Bytes → List CPubKey × Bytes
  | 0, s => ([], s)
  | fuel + 1, s =>
    match s with
    | [] => ([], s)
    | len :: rest =>
      if (len = 33 ∨ len = 65) ∧ len ≤ rest.length then
        ((⟨rest.take len⟩ : CPubKey) :: (readPubKeys fuel (rest.drop len)).1,
          (readPubKeys fuel (rest.drop len)).2)
      else ([], s)

/-- Decodes the canonical M-of-N script `OP_m <key> ... <key> OP_n OP_CHECKMULTISIG`
into the pair of `m` and the keys in script order. -/
def decodeMultisig (script : Bytes) : Option (Int × List CPubKey) :=
  match script with
  | [] => none
  | m :: rest =>
    match DecodeOP_N m, readPubKeys rest.length rest with
    | some nRequired, (keys, [n, op]) =>
      if op = OP_CHECKMULTISIG ∧ DecodeOP_N n = some (keys.length : Int) ∧ nRequired ≤ keys.length
      then some (nRequired, keys) else none
    | _, _ => none


/-- The pushes of a list of keys, one after the other. -/
def pushAll : List CPubKey → Bytes
  | [] => []
  | k :: ks => pushBytes (ToByteVector k) ++ pushAll ks

/-- The byte length of the multisig script over keys of the given encodings: two
small-number opcodes, the final opcode, and one length byte in front of every key. -/
def scriptSize (keys : List CPubKey) : Nat :=
  3 + (keys.map (fun k => 1 + k.vch.length)).sum

/-- The keys a list of hex strings stands for, in the order of the strings. -/
def parsedKeys (env : KeyEnv) (keys : List String) : List CPubKey :=
  keys.map (fun ks => CPubKey.ofVector (env.ParseHex ks))

/-! ## `verifymessage` -/

/-- The collaborators of `verifymessage`. -/
structure SigEnv where
  /-- The destination of `CBitcoinAddress(str)`: `CNoDestination` when `IsValid()` is false. -/
  decodeAddress : String → CTxDestination
  /-- The function `DecodeBase64(str, &fInvalid)`: the decoded bytes and the flag `fInvalid`. -/
  DecodeBase64 : String → Bytes × Bool
  /-- The global `strMessageMagic`. -/
  strMessageMagic : String
  /-- The digest `ss.GetHash()` of a `CHashWriter` into which the listed strings were
  serialized in order. -/
  GetHash : List String → Bytes
  /-- Public-key recovery from a compact signature of the right length over a digest. -/
  recover : Bytes → Bytes → Option CPubKey
  /-- The key hash `CPubKey::GetID`. -/
  GetID : CPubKey → CKeyID

/-- Modelled from the spec: `CPubKey::RecoverCompact` of `pubkey.cpp` (not under src/).
A CompactSignature is a "fixed-length recoverable signature" (65 bytes: recovery id
and two scalars); for any other length recovery fails, and for that length it
"either yields exactly one candidate key or fails". -/
def RecoverCompact (env : SigEnv) (hash vchSig : Bytes) : Option CPubKey :=
  if vchSig.length ≠ 65 then none else env.recover hash vchSig

/-- The function `verifymessage`, after the check `params.size() != 3`, with the three
strings `params[i].get_str()` passed as arguments. -/
def verifymessage (env : SigEnv) (strAddress strSign strMessage : String) : Except Failure Bool :=
  if !addressIsValid (env.decodeAddress strAddress) then .error .invalidAddress
  else
    match addressGetKeyID (env.decodeAddress strAddress) with
    | none => .error .notKeyAddress
    | some keyID =>
      if (env.DecodeBase64 strSign).2 then .error .malformedBase64
      else
        match RecoverCompact env (env.GetHash [env.strMessageMagic, strMessage])
            (env.DecodeBase64 strSign).1 with
        | none => .ok false
        | some pubkey => .ok (env.GetID pubkey == keyID)

/-! ## `gettradingdata` -/

/-- The json_spirit values that occur as parameters and as fields of a record.  A
`real` keeps the raw amount it was computed from (`amount<double>()`), no floating
point arithmetic is modelled; a `strArray` is an `Array` whose entries are strings. -/
inductive Value
  | null
  | bool (b : Bool)
  | int (i : Int)
  | real (raw : Int)
  | str (s : String)
  | strArray (a : List String)
deriving DecidableEq, Repr

/-- The json_spirit type tags. -/
inductive ValueType
  | obj_type | array_type | str_type | bool_type | int_type | real_type | null_type
deriving DecidableEq, Repr

/-- The tag `Value::type()`. -/
def Value.type : Value → ValueType
  | .null => .null_type
  | .bool _ => .bool_type
  | .int _ => .int_type
  | .real _ => .real_type
  | .str _ => .str_type
  | .strArray _ => .array_type

/-- The accessor `Value::get_int`: the 64-bit integer cut down to `int`. -/
def Value.get_int : Value → Except Failure Int
  | .int i => .ok (toInt32 i)
  | _ => .error .badValueType

/-- The accessor `Value::get_bool`. -/
def Value.get_bool : Value → Except Failure Bool
  | .bool b => .ok b
  | _ => .error .badValueType

/-- A json_spirit `Pair`: field name and value. -/
abbrev Pair := String × Value

/-- A json_spirit `Object`: an ordered list of pairs. -/
abbrev Object := List Pair

/-- Modelled from the spec: `RPCTypeCheck(params, typesExpected)` of `rpcserver.cpp`
(not under src/), "bad shape/count/type, rejected before any state access": the
parameters present are compared, position by position from `i` on, with the expected
types, and the first mismatch is a type failure. -/
def RPCTypeCheckFrom (i : Nat) : List Value → List ValueType → Except Failure Unit
  | v :: vs, t :: ts =>
    if v.type ≠ t then .error (.typeError i) else RPCTypeCheckFrom (i + 1) vs ts
  | _, _ => .ok ()

/-- The call `RPCTypeCheck(params, typesExpected)`. -/
def RPCTypeCheck (params : List Value) (typesExpected : List ValueType) : Except Failure Unit :=
  RPCTypeCheckFrom 0 params typesExpected

/-- A transaction output. -/
structure CTxOut where
  nValue : Int
  scriptPubKey : Bytes
deriving DecidableEq, Repr

/-- A transaction: `hashHex` is `GetHash().GetHex()`. -/
structure CTransaction where
  hashHex : String
  vout : List CTxOut
deriving DecidableEq, Repr

/-- A block as read from disk: the time of its header and its transactions. -/
structure CBlock where
  nTime : Nat
  vtx : List CTransaction
deriving DecidableEq, Repr

/-- An entry of the block index: `genesis` is an entry whose `pprev` is null, `child`
one whose `pprev` points to the entry of the parent block. -/
inductive CBlockIndex
  | genesis (nTime : Nat) (nHeight : Nat)
  | child (nTime : Nat) (nHeight : Nat) (pprev : CBlockIndex)
deriving DecidableEq, Repr

/-- `CBlockIndex::GetBlockTime`: the field `nTime` as a 64-bit integer. -/
def CBlockIndex.GetBlockTime : CBlockIndex → Int
  | .genesis nTime _ => nTime
  | .child nTime _ _ => nTime

/-- `CBlock::GetBlockTime`. -/
def CBlock.GetBlockTime (block : CBlock) : Int := block.nTime

/-- The result type `CurrencyPair` of `TxOutToCurrencyPair` (declared in
`currencypair.h`, not under src/), with the three tags the switch in `gettradingdata`
tells apart and the data it reads from each. -/
inductive CurrencyPair
  | Empty
  | Error (error : String)
  | Valid (fromCurrency : String) (fromAmount : Int) (toCurrency : String) (toAmount : Int)
      (xid : String)
deriving DecidableEq, Repr

/-- The collaborators of `gettradingdata`. -/
structure ChainEnv where
  /-- The entry `chainActive.Tip()`, which the function dereferences without a null
  test: a chain with at least the genesis block is assumed. -/
  chainTip : CBlockIndex
  /-- The function `ReadBlockFromDisk(block, pindex)`: the block, or `none` when it
  returns false. -/
  ReadBlockFromDisk : CBlockIndex → Option CBlock
  /-- The function `TxOutToCurrencyPair(vout, snode_pubkey)`: the pair and the string
  written to `snode_pubkey`. -/
  TxOutToCurrencyPair : List CTxOut → CurrencyPair × String

/-- The largest `uint32_t`, `std::numeric_limits<uint32_t>::max()`. -/
def UINT32_MAX : Nat := 4294967295

/-- The conversion of an `int` to `uint32_t`. -/
def toUint32 (n : Int) : Nat := (n % 4294967296).toNat

/-- The state the scan threads through its loop: the array `records`, and the log of
the index entries handed to `ReadBlockFromDisk`, in call order. -/
structure ScanState where
  records : List Object
  reads : List CBlockIndex
deriving DecidableEq, Repr

/-- The `switch (p.tag)` of the inner loop: the records appended for one transaction. -/
def recordsOfTx (env : ChainEnv) (showErrors : Bool) (timestamp : Int) (tx : CTransaction) :
    List Object :=
  match env.TxOutToCurrencyPair tx.vout with
  | (.Error error, _) =>
    if showErrors then
      [[("timestamp", .int timestamp), ("txid", .str tx.hashHex), ("xid", .str error)]]
    else []
  | (.Valid fromCurrency fromAmount toCurrency toAmount xid, snode_pubkey) =>
    [[("timestamp", .int timestamp), ("txid", .str tx.hashHex), ("to", .str snode_pubkey),
      ("xid", .str xid), ("from", .str fromCurrency), ("fromAmount", .real fromAmount),
      ("to", .str toCurrency), ("toAmount", .real toAmount)]]
  | (.Empty, _) => []

/-- The body of the outer loop for the index entry `pindex`: the block is read, and
when that fails the body is left by `continue`. -/
def scanBlock (env : ChainEnv) (showErrors : Bool) (pindex : CBlockIndex) (st : ScanState) :
    ScanState :=
  match env.ReadBlockFromDisk pindex with
  | none => { st with reads := st.reads ++ [pindex] }
  | some block =>
    { records := block.vtx.foldl
        (fun records tx => records ++ recordsOfTx env showErrors block.GetBlockTime tx) st.records
      reads := st.reads ++ [pindex] }

/-- The loop `for (; pindex->pprev && pindex->GetBlockTime() > (timeBegin-30*24*60*60)
&& countOfBlocks > 0; pindex = pindex->pprev, --countOfBlocks)`. -/
def scanLoop (env : ChainEnv) (showErrors : Bool) (timeBegin : Int) :
    CBlockIndex → Nat → ScanState → ScanState
  | .genesis _ _, _, st => st
  | .child nTime nHeight pprev, countOfBlocks, st =>
    if (CBlockIndex.child nTime nHeight pprev).GetBlockTime > timeBegin - 30 * 24 * 60 * 60
        ∧ countOfBlocks > 0 then
      scanLoop env showErrors timeBegin pprev (countOfBlocks - 1)
        (scanBlock env showErrors (.child nTime nHeight pprev) st)
    else st

/-- The value of `countOfBlocks` after the parameters were read. -/
def countOfBlocksParam (params : List Value) : Except Failure Nat :=
  match params with
  | [] => .ok UINT32_MAX
  | v :: _ =>
    match RPCTypeCheck params [.int_type] with
    | .error e => .error e
    | .ok _ =>
      match v.get_int with
      | .error e => .error e
      | .ok n => .ok (toUint32 n)

/-- The value of `showErrors` after the parameters were read. -/
def showErrorsParam (params : List Value) : Except Failure Bool :=
  match params with
  | [_, v] =>
    match RPCTypeCheck params [.bool_type] with
    | .error e => .error e
    | .ok _ => v.get_bool
  | _ => .ok false

/-- The function `gettradingdata`, returning the final state of the scan: the array
`records` it returns and the log of the blocks it tried to read. -/
def gettradingdataScan (env : ChainEnv) (fHelp : Bool) (params : List Value) :
    Except Failure ScanState :=
  if fHelp || decide (params.length > 1) then .error .help
  else
    match countOfBlocksParam params with
    | .error e => .error e
    | .ok countOfBlocks =>
      match showErrorsParam params with
      | .error e => .error e
      | .ok showErrors =>
        .ok (scanLoop env showErrors env.chainTip.GetBlockTime env.chainTip countOfBlocks
          { records := [], reads := [] })

/-- The function `gettradingdata`: the array `records`, or the failure thrown. -/
def gettradingdata (env : ChainEnv) (fHelp : Bool) (params : List Value) :
    Except Failure (List Object) :=
  match gettradingdataScan env fHelp params with
  | .error e => .error e
  | .ok st => .ok st.records

/-! ## The walk and its records, stated directly -/

/-- The index entries from `pindex` back to the genesis entry, following `pprev`. -/
def chainFrom : CBlockIndex → List CBlockIndex
  | .genesis nTime nHeight => [.genesis nTime nHeight]
  | .child nTime nHeight pprev => .child nTime nHeight pprev :: chainFrom pprev

/-- Whether an index entry has a parent (`pindex->pprev` is not null). -/
def CBlockIndex.hasParent : CBlockIndex → Bool
  | .genesis _ _ => false
  | .child _ _ _ => true

/-- Whether an index entry is younger than 30 days before `timeBegin`. -/
def withinHorizon (timeBegin : Int) (b : CBlockIndex) : Bool :=
  decide (b.GetBlockTime > timeBegin - 30 * 24 * 60 * 60)

/-- The blocks of a walk that starts at `pindex` and is bounded by `count`: the entries
from `pindex` backwards for as long as they have a parent and lie within the horizon of
`timeBegin`, at most `count` of them. -/
def walkOrder (timeBegin : Int) (pindex : CBlockIndex) (count : Nat) : List CBlockIndex :=
  ((chainFrom pindex).takeWhile (fun b => b.hasParent && withinHorizon timeBegin b)).take count

/-- The record of a transaction that decodes as `Valid`, and `none` for every other. -/
def validRecord (env : ChainEnv) (timestamp : Int) (tx : CTransaction) : Option Object :=
  match env.TxOutToCurrencyPair tx.vout with
  | (.Valid fromCurrency fromAmount toCurrency toAmount xid, snode_pubkey) =>
    some [("timestamp", .int timestamp), ("txid", .str tx.hashHex), ("to", .str snode_pubkey),
      ("xid", .str xid), ("from", .str fromCurrency), ("fromAmount", .real fromAmount),
      ("to", .str toCurrency), ("toAmount", .real toAmount)]
  | _ => none

/-- The records one visited block contributes when errors are not shown: none when the
block cannot be read, otherwise one for each transaction that decodes as `Valid`, in
the order of the transactions. -/
def blockValidRecords (env : ChainEnv) (pindex : CBlockIndex) : List Object :=
  match env.ReadBlockFromDisk pindex with
  | none => []
  | some block => block.vtx.filterMap (validRecord env block.GetBlockTime)

/-- The concatenation of the records of a list of blocks, in list order. -/
def concatRecords (env : ChainEnv) : List CBlockIndex → List Object
  | [] => []
  | b :: bs => blockValidRecords env b ++ concatRecords env bs

/-- The block bound a parameter list stands for: none given is the largest 32-bit
count, an integer is taken modulo 2^32. -/
def blockBound (maxBlocks : Option Int) : Nat :=
  match maxBlocks with
  | none => UINT32_MAX
  | some n => (n % 4294967296).toNat

/-- The parameter list of a call with or without `maxBlocks`. -/
def paramsOf (maxBlocks : Option Int) : List Value :=
  match maxBlocks with
  | none => []
  | some n => [.int n]

/-! ## `validateaddress` -/

/-- The accessor `Value::get_str`. -/
def Value.get_str : Value → Except Failure String
  | .str s => .ok s
  | _ => .error .badValueType

/-- `CPubKey::IsCompressed`: the key has 33 bytes. -/
def CPubKey.IsCompressed (k : CPubKey) : Bool := k.vch.length == 33

/-- The ownership bitmask `isminetype` that `IsMine` returns. -/
abbrev isminetype := Nat

/-- Modelled from the spec: the enumerator `ISMINE_NO` of `wallet_ismine.h` (not under
src/), the mask with no ownership flag set. -/
def ISMINE_NO : isminetype := 0

/-- The script classes `txnouttype` that `ExtractDestinations` reports (declared in
`script/standard.h`, not under src/). -/
inductive txnouttype
  | TX_NONSTANDARD | TX_PUBKEY | TX_PUBKEYHASH | TX_SCRIPTHASH | TX_MULTISIG | TX_NULL_DATA
deriving DecidableEq, Repr

/-- The wallet as `validateaddress` and `DescribeAddressVisitor` use it. -/
structure AddressWallet where
  /-- The function `IsMine(*pwalletMain, dest)`. -/
  IsMine : CTxDestination → isminetype
  /-- The method `GetPubKey(keyID, vchPubKey)`: the key, or `none` when it returns false. -/
  GetPubKey : CKeyID → Option CPubKey
  /-- The method `GetCScript(scriptID, subscript)`: the script, or `none` when it returns false. -/
  GetCScript : CScriptID → Option Bytes
  /-- The member `mapAddressBook`: the name of the entry of a destination, if there is one. -/
  mapAddressBook : CTxDestination → Option String

/-- The collaborators of `validateaddress`. -/
structure AddrEnv where
  /-- Whether the node is built with `ENABLE_WALLET`. -/
  ENABLE_WALLET : Bool
  /-- The global `pwalletMain`; `none` when the pointer is null. -/
  pwalletMain : Option AddressWallet
  /-- The destination of `CBitcoinAddress(str)`: `CNoDestination` when `IsValid()` is false. -/
  decodeAddress : String → CTxDestination
  /-- The string `CBitcoinAddress(dest).ToString()`. -/
  encodeAddress : CTxDestination → String
  /-- The enumerator `ISMINE_WATCH_ONLY` of `wallet_ismine.h`. -/
  ISMINE_WATCH_ONLY : isminetype
  /-- The enumerator `ISMINE_SPENDABLE` of `wallet_ismine.h`. -/
  ISMINE_SPENDABLE : isminetype
  /-- The function `HexStr`. -/
  HexStr : Bytes → String
  /-- The function `ExtractDestinations(subscript, whichType, addresses, nRequired)`:
  the three values it writes. -/
  ExtractDestinations : Bytes → txnouttype × List CTxDestination × Int
  /-- The function `GetTxnOutputType`. -/
  GetTxnOutputType : txnouttype → String

/-- What a call of `validateaddress` does to the state it shares with the rest of the
node: the locks it takes and the wallet lookups it makes. -/
inductive Access
  /-- `LOCK(cs_main)`, the lock of the chain state. -/
  | lockMain
  /-- `IsMine(*pwalletMain, dest)` -/
  | isMine (dest : CTxDestination)
  /-- `pwalletMain->GetPubKey(keyID, vchPubKey)` -/
  | getPubKey (keyID : CKeyID)
  /-- `pwalletMain->GetCScript(scriptID, subscript)` -/
  | getCScript (scriptID : CScriptID)
  /-- `LOCK(pwalletMain->cs_wallet)` -/
  | lockWallet
  /-- `pwalletMain->mapAddressBook.count(dest)` -/
  | addressBook (dest : CTxDestination)
deriving DecidableEq, Repr

/-- The class `DescribeAddressVisitor` constructed with `mine` and applied to a
destination: the object it returns and the wallet lookups it makes.  It is constructed
only after `pwalletMain` was found not null, so the wallet is passed to it. -/
def DescribeAddressVisitor (env : AddrEnv) (wallet : AddressWallet) (mine : isminetype) :
    CTxDestination → Object × List Access
  | .CNoDestination => ([], [])
  | .KeyID keyID =>
    if mine = env.ISMINE_SPENDABLE then
      ([("isscript", .bool false),
        ("pubkey", .str (env.HexStr ((wallet.GetPubKey keyID).getD ⟨[]⟩).vch)),
        ("iscompressed", .bool ((wallet.GetPubKey keyID).getD ⟨[]⟩).IsCompressed)],
       [.getPubKey keyID])
    else ([("isscript", .bool false)], [])
  | .ScriptID scriptID =>
    if mine ≠ ISMINE_NO then
      ([("isscript", .bool true),
        ("script", .str (env.GetTxnOutputType
          (env.ExtractDestinations ((wallet.GetCScript scriptID).getD [])).1)),
        ("hex", .str (env.HexStr ((wallet.GetCScript scriptID).getD []))),
        ("addresses", .strArray
          ((env.ExtractDestinations ((wallet.GetCScript scriptID).getD [])).2.1.map
            env.encodeAddress))]
        ++ (if (env.ExtractDestinations ((wallet.GetCScript scriptID).getD [])).1
              = .TX_MULTISIG then
            [("sigsrequired",
              .int (env.ExtractDestinations ((wallet.GetCScript scriptID).getD [])).2.2)]
          else []),
       [.getCScript scriptID])
    else ([("isscript", .bool true)], [])

/-- The part of `validateaddress` inside `if (mine != ISMINE_NO)`: the pairs appended
to `ret` and the wallet lookups made. -/
def ownedDetail (env : AddrEnv) (wallet : AddressWallet) (mine : isminetype)
    (dest : CTxDestination) : Object × List Access :=
  if mine ≠ ISMINE_NO then
    (("iswatchonly", .bool (decide (mine &&& env.ISMINE_WATCH_ONLY ≠ 0)))
        :: (DescribeAddressVisitor env wallet mine dest).1,
      (DescribeAddressVisitor env wallet mine dest).2)
  else ([], [])

/-- The function `validateaddress`, returning the object `ret` together with the log
of the locks taken and the wallet lookups made, in order. -/
def validateaddressTrace (env : AddrEnv) (fHelp : Bool) (params : List Value) :
    Except Failure (Object × List Access) :=
  if fHelp || decide (params.length ≠ 1) then .error .help
  else
    match params with
    | [v] =>
      match v.get_str with
      | .error e => .error e
      | .ok str =>
        if addressIsValid (env.decodeAddress str) then
          if env.ENABLE_WALLET then
            match env.pwalletMain with
            | none => .error .nullPointerDereference
            | some wallet =>
              .ok ([("isvalid", .bool true),
                    ("address", .str (env.encodeAddress (env.decodeAddress str))),
                    ("ismine", .bool (decide
                      (wallet.IsMine (env.decodeAddress str) &&& env.ISMINE_SPENDABLE ≠ 0)))]
                  ++ (ownedDetail env wallet (wallet.IsMine (env.decodeAddress str))
                        (env.decodeAddress str)).1
                  ++ (match wallet.mapAddressBook (env.decodeAddress str) with
                      | some name => [("account", .str name)]
                      | none => []),
                [.lockMain, .isMine (env.decodeAddress str)]
                  ++ (ownedDetail env wallet (wallet.IsMine (env.decodeAddress str))
                        (env.decodeAddress str)).2
                  ++ [.lockWallet, .addressBook (env.decodeAddress str)])
          else
            .ok ([("isvalid", .bool true),
                  ("address", .str (env.encodeAddress (env.decodeAddress str)))], [])
        else .ok ([("isvalid", .bool false)], [])
    | _ => .error .help

/-- The function `validateaddress`: the object `ret`, or the failure thrown. -/
def validateaddress (env : AddrEnv) (fHelp : Bool) (params : List Value) :
    Except Failure Object :=
  match validateaddressTrace env fHelp params with
  | .error e => .error e
  | .ok r => .ok r.1

/-- The field names of an object, in order. -/
def fieldNames (obj : Object) : List String := obj.map Prod.fst

/-! ## Test fixtures: concrete collaborators -/

/-- Value of a hexadecimal digit. -/
def hexDigit (c : Char) : Option Nat :=
  if 48 ≤ c.toNat ∧ c.toNat ≤ 57 then some (c.toNat - 48)
  else if 97 ≤ c.toNat ∧ c.toNat ≤ 102 then some (c.toNat - 87)
  else if 65 ≤ c.toNat ∧ c.toNat ≤ 70 then some (c.toNat - 55)
  else none

/-- A hex decoder on character lists: pairs of digits, stopping at the first non-digit. -/
def parseHexChars : List Char → Bytes
  | a :: b :: rest =>
    match hexDigit a, hexDigit b with
    | some x, some y => (16 * x + y) :: parseHexChars rest
    | _, _ => []
  | _ => []

/-- A hex test on strings: not empty, even length, digits only. -/
def isHexString (s : String) : Bool :=
  s.data.all (fun c => (hexDigit c).isSome) && s.data.length != 0 && s.data.length % 2 == 0

/-- The compressed encoding of the generator point of secp256k1. -/
def hexG : String := "0279be667ef9dcbbac55a06295ce870b07029bfcdb2dce28d959f2815b16f81798"

/-- The compressed encoding of twice the generator point of secp256k1. -/
def hex2G : String := "02c6047f9441ed7d6d3045406e95c07cd85c778e4b8cef3ca7abac09b95c709ee5"

/-- The compressed encoding of three times the generator point of secp256k1. -/
def hex3G : String := "02f9308a019258c31049344f85f89d5229b531c845836f99b08601f113bce036f9"

/-- A node without wallet: no string is looked up as an address, the curve check
accepts the three points above. -/
def nodeWithoutWallet : KeyEnv where
  pwalletMain := none
  decodeAddress := fun _ => .CNoDestination
  IsHex := isHexString
  ParseHex := fun s => parseHexChars s.data
  onCurve := fun v =>
    v == parseHexChars hexG.data || v == parseHexChars hex2G.data || v == parseHexChars hex3G.data

/-- A node whose wallet holds no key, and for which the string "BXaddress1" is the
address of the key hash `[1]`. -/
def nodeWithEmptyWallet : KeyEnv where
  pwalletMain := some ⟨fun _ => none⟩
  decodeAddress := fun s => if s = "BXaddress1" then .KeyID [1] else .CNoDestination
  IsHex := isHexString
  ParseHex := fun s => parseHexChars s.data
  onCurve := fun v =>
    v == parseHexChars hexG.data || v == parseHexChars hex2G.data || v == parseHexChars hex3G.data

/-- A node whose wallet holds the generator point as the key of the key hash `[1]`, and
for which the string "BXaddress1" is the address of that key hash. -/
def nodeWithKeyWallet : KeyEnv where
  pwalletMain := some ⟨fun id => if id = [1] then some ⟨parseHexChars hexG.data⟩ else none⟩
  decodeAddress := fun s => if s = "BXaddress1" then .KeyID [1] else .CNoDestination
  IsHex := isHexString
  ParseHex := fun s => parseHexChars s.data
  onCurve := fun v =>
    v == parseHexChars hexG.data || v == parseHexChars hex2G.data || v == parseHexChars hex3G.data

/-- A node for `verifymessage`: "BXaddress1" is the address of the key hash `[1]` and
"BXscript1" a script address; the base64 codec knows the empty string, "AA==" (one zero
byte) and the encoding of 65 zero bytes; recovery yields the generator point for the
digest `[7]`, whose key hash is `[1]`. -/
def sigNode : SigEnv where
  decodeAddress := fun s =>
    if s = "BXaddress1" then .KeyID [1] else if s = "BXscript1" then .ScriptID [2]
    else .CNoDestination
  DecodeBase64 := fun s =>
    if s = "" then ([], false)
    else if s = "AA==" then ([0], false)
    else if s = String.mk (List.replicate 87 'A' ++ ['=']) then (List.replicate 65 0, false)
    else ([], true)
  strMessageMagic := "DarkNet Signed Message:\n"
  GetHash := fun l => if l = ["DarkNet Signed Message:\n", "hello"] then [7] else [8]
  recover := fun hash _ => if hash = [7] then some ⟨parseHexChars hexG.data⟩ else none
  GetID := fun k => if k = ⟨parseHexChars hexG.data⟩ then [1] else [9]

/-- A transaction whose outputs carry a complete trade. -/
def tradeTx : CTransaction := ⟨"aa01", [⟨1, [1]⟩]⟩

/-- A transaction whose outputs carry a trade that does not decode. -/
def brokenTx : CTransaction := ⟨"bb02", [⟨2, [2]⟩]⟩

/-- A transaction that carries no trade. -/
def plainTx : CTransaction := ⟨"cc03", [⟨3, [3]⟩]⟩

/-- A chain of five blocks.  The tip (height 4) has time 10000000; the block at height
2 is older than 30 days before the tip, the block at height 1 is not. -/
def sampleTip : CBlockIndex :=
  .child 10000000 4 (.child 9999000 3 (.child 7000000 2 (.child 9998000 1 (.genesis 0 0))))

/-- A node on the chain `sampleTip`: the block at height 4 cannot be read, the block at
height 3 holds the three sample transactions. -/
def chainNode : ChainEnv where
  chainTip := sampleTip
  ReadBlockFromDisk := fun pindex =>
    match pindex with
    | .child _ 3 _ => some ⟨9999000, [plainTx, tradeTx, brokenTx, tradeTx]⟩
    | .child _ 4 _ => none
    | .child nTime _ _ => some ⟨nTime, [tradeTx]⟩
    | .genesis nTime _ => some ⟨nTime, []⟩
  TxOutToCurrencyPair := fun vout =>
    if vout = tradeTx.vout then (.Valid "BLOCK" 100 "LTC" 5 "swap1", "snodekey")
    else if vout = brokenTx.vout then (.Error "bad snode pubkey", "")
    else (.Empty, "")

/-- A wallet for `validateaddress` with the flag values 1 (watch only) and 4
(spendable): the key hash `[1]` is spendable, the key hash `[2]` is watch only, and for
the key hash `[3]` both flags are set; the key of `[1]` and of `[3]` is the generator
point. -/
def ownerWallet : AddressWallet where
  IsMine := fun dest =>
    if dest = .KeyID [1] then 4 else if dest = .KeyID [2] then 1
    else if dest = .KeyID [3] then 5 else 0
  GetPubKey := fun id =>
    if id = [1] ∨ id = [3] then some ⟨parseHexChars hexG.data⟩ else none
  GetCScript := fun _ => none
  mapAddressBook := fun dest => if dest = .KeyID [1] then some "savings" else none

/-- A node for `validateaddress`: "BXaddress1", "BXaddress2" and "BXaddress3" are the
addresses of the key hashes `[1]`, `[2]` and `[3]`, no other string is an address. -/
def addrNode : AddrEnv where
  ENABLE_WALLET := true
  pwalletMain := some ownerWallet
  decodeAddress := fun s =>
    if s = "BXaddress1" then .KeyID [1] else if s = "BXaddress2" then .KeyID [2]
    else if s = "BXaddress3" then .KeyID [3] else .CNoDestination
  encodeAddress := fun dest =>
    if dest = .KeyID [1] then "BXaddress1" else if dest = .KeyID [2] then "BXaddress2"
    else if dest = .KeyID [3] then "BXaddress3" else ""
  ISMINE_WATCH_ONLY := 1
  ISMINE_SPENDABLE := 4
  HexStr := fun b => if b = parseHexChars hexG.data then hexG else ""
  ExtractDestinations := fun _ => (.TX_NONSTANDARD, [], 0)
  GetTxnOutputType := fun _ => "nonstandard"

/-- The node `addrNode` with the flag values 1 (watch only) and 2 (spendable), and a
wallet for which both flags are set for the key hash `[3]`. -/
def addrNodeTwoFlags : AddrEnv :=
  { addrNode with
    ISMINE_SPENDABLE := 2
    pwalletMain := some { ownerWallet with
      IsMine := fun dest => if dest = .KeyID [3] then 3 else 0 } }

/-! ## Lemmas on public keys and scripts -/


theorem wellFormed_length {v : Bytes} (h : CPubKey.wellFormed v = true) :
    v.length = 33 ∨ v.length = 65 := by
  cases v with
  | nil => simp [CPubKey.wellFormed] at h
  | cons a t =>
    simp only [CPubKey.wellFormed, CPubKey.GetLen, Bool.and_eq_true, beq_iff_eq, bne_iff_ne] at h
    obtain ⟨h1, h2⟩ := h
    split_ifs at h1 h2
    · left; exact h2.symm
    · right; exact h2.symm
    · exact absurd rfl h1

theorem ofVector_vch_of_valid {v : Bytes} (h : (CPubKey.ofVector v).IsValid = true) :
    (CPubKey.ofVector v).vch = v := by
  by_cases hw : CPubKey.wellFormed v = true
  · simp [CPubKey.ofVector, hw]
  · rw [CPubKey.IsValid, CPubKey.ofVector, if_neg hw] at h
    simp [CPubKey.wellFormed] at h

theorem pushBytes_key {v : Bytes} (h : v.length = 33 ∨ v.length = 65) :
    pushBytes v = v.length :: v := by
  unfold pushBytes OP_PUSHDATA1
  rcases h with h | h <;> simp [h]

theorem foldl_push (keys : List CPubKey) (init : Bytes) :
    keys.foldl (fun script key => script ++ pushBytes (ToByteVector key)) init
      = init ++ pushAll keys := by
  induction keys generalizing init with
  | nil => simp [pushAll]
  | cons k ks ih => simp [pushAll, ih, List.append_assoc]

theorem GetScriptForMultisig_eq (n : Int) (keys : List CPubKey) :
    GetScriptForMultisig n keys
      = EncodeOP_N n :: (pushAll keys ++ [EncodeOP_N keys.length, OP_CHECKMULTISIG]) := by
  simp [GetScriptForMultisig, foldl_push]

theorem pushAll_length (keys : List CPubKey) (hv : ∀ k ∈ keys, k.IsValid = true) :
    (pushAll keys).length = (keys.map (fun k => 1 + k.vch.length)).sum := by
  induction keys with
  | nil => simp [pushAll]
  | cons k ks ih =>
    have hk := wellFormed_length (hv k (List.mem_cons_self _ _))
    have := ih (fun k hk => hv k (List.mem_cons_of_mem _ hk))
    simp [pushAll, ToByteVector, pushBytes_key hk, this]
    omega

theorem GetScriptForMultisig_length (n : Int) (keys : List CPubKey)
    (hv : ∀ k ∈ keys, k.IsValid = true) :
    (GetScriptForMultisig n keys).length = scriptSize keys := by
  simp [GetScriptForMultisig_eq, pushAll_length keys hv, scriptSize]
  omega

theorem readPubKeys_pushAll (keys : List CPubKey) (hv : ∀ k ∈ keys, k.IsValid = true)
    (t : Nat) (tail : Bytes) (ht : t ≠ 33 ∧ t ≠ 65) (fuel : Nat) (hf : keys.length < fuel) :
    readPubKeys fuel (pushAll keys ++ t :: tail) = (keys, t :: tail) := by
  induction keys generalizing fuel with
  | nil =>
    cases fuel with
    | zero => omega
    | succ f => simp [pushAll, readPubKeys, ht.1, ht.2]
  | cons k ks ih =>
    cases fuel with
    | zero => omega
    | succ f =>
      have hk := wellFormed_length (hv k (List.mem_cons_self _ _))
      have ih2 := ih (fun k hk => hv k (List.mem_cons_of_mem _ hk)) f
        (by simp at hf; omega)
      simp only [pushAll, ToByteVector, pushBytes_key hk, List.cons_append, readPubKeys,
        List.append_assoc]
      rw [if_pos ⟨hk, by simp⟩]
      simp [List.take_left', List.drop_left', ih2]

theorem DecodeOP_N_EncodeOP_N (n : Int) (h1 : 1 ≤ n) (h16 : n ≤ 16) :
    DecodeOP_N (EncodeOP_N n) = some n := by
  unfold DecodeOP_N EncodeOP_N OP_1 OP_16
  have h0 : n ≠ 0 := by omega
  simp only [h0, if_false]
  rw [if_pos (by omega)]
  congr 1
  omega

theorem decodeMultisig_GetScriptForMultisig (n : Int) (keys : List CPubKey)
    (hv : ∀ k ∈ keys, k.IsValid = true) (h1 : 1 ≤ n) (hn : n ≤ keys.length)
    (h16 : keys.length ≤ 16) :
    decodeMultisig (GetScriptForMultisig n keys) = some (n, keys) := by
  have hlen1 : (1 : Int) ≤ (keys.length : Int) := by omega
  have hlen16 : (keys.length : Int) ≤ 16 := by omega
  have hE : EncodeOP_N (keys.length : Int) ≠ 33 ∧ EncodeOP_N (keys.length : Int) ≠ 65 := by
    unfold EncodeOP_N OP_1
    have h0 : (keys.length : Int) ≠ 0 := by omega
    simp only [h0, if_false]
    omega
  have hfuel : keys.length < (pushAll keys ++ [EncodeOP_N keys.length, OP_CHECKMULTISIG]).length := by
    rw [List.length_append, pushAll_length keys hv]
    have : keys.length ≤ (keys.map (fun k => 1 + k.vch.length)).sum := by
      clear hv hn h16 hlen1 hlen16 hE
      induction keys with
      | nil => simp
      | cons k ks ih => simp; omega
    simp
    omega
  rw [GetScriptForMultisig_eq]
  simp only [decodeMultisig]
  rw [DecodeOP_N_EncodeOP_N n h1 (by omega),
    readPubKeys_pushAll keys hv _ _ hE _ hfuel]
  simp [DecodeOP_N_EncodeOP_N _ hlen1 hlen16, hn]


/-! ## Key resolution -/

theorem resolveKey_hex (env : KeyEnv) (ks : String) (ha : addressCaseTaken env ks = false)
    (hh : env.IsHex ks = true)
    (hv : (CPubKey.ofVector (env.ParseHex ks)).IsFullyValid env = true) :
    resolveKey env ks = .ok (CPubKey.ofVector (env.ParseHex ks)) := by
  unfold resolveKey
  unfold addressCaseTaken at ha
  cases hw : env.pwalletMain with
  | none => simp [hh, hv]
  | some w =>
    rw [hw] at ha
    simp only [Option.isSome_some, Bool.true_and] at ha
    simp [ha, hh, hv]

theorem resolveKey_ok_valid (env : KeyEnv) (ks : String) (k : CPubKey)
    (h : resolveKey env ks = .ok k) : k.IsFullyValid env = true := by
  unfold resolveKey at h
  split at h
  · split_ifs at h with h1 h2 h3
    · split at h
      · cases h
      · split at h
        · cases h
        · split_ifs at h with h5
          cases h
          simpa using h5
    · cases h
      simpa using h3
  · split_ifs at h with h1 h2
    cases h
    simpa using h2

theorem gatherPubKeys_hex (env : KeyEnv) (keys : List String)
    (hkeys : ∀ ks ∈ keys, addressCaseTaken env ks = false ∧ env.IsHex ks = true ∧
      (CPubKey.ofVector (env.ParseHex ks)).IsFullyValid env = true) :
    gatherPubKeys env keys = .ok (parsedKeys env keys) := by
  induction keys with
  | nil => rfl
  | cons ks rest ih =>
    obtain ⟨ha, hh, hv⟩ := hkeys ks (List.mem_cons_self _ _)
    simp [gatherPubKeys, resolveKey_hex env ks ha hh hv,
      ih (fun k hk => hkeys k (List.mem_cons_of_mem _ hk)), parsedKeys]

theorem parsedKeys_valid (env : KeyEnv) (keys : List String)
    (hkeys : ∀ ks ∈ keys, addressCaseTaken env ks = false ∧ env.IsHex ks = true ∧
      (CPubKey.ofVector (env.ParseHex ks)).IsFullyValid env = true) :
    ∀ k ∈ parsedKeys env keys, k.IsValid = true := by
  intro k hk
  simp only [parsedKeys, List.mem_map] at hk
  obtain ⟨ks, hks, rfl⟩ := hk
  have := (hkeys ks hks).2.2
  simp only [CPubKey.IsFullyValid, Bool.and_eq_true] at this
  exact this.1

theorem toInt32_of_small (n : Nat) (h : n < 2147483648) : toInt32 (n : Int) = n := by
  unfold toInt32
  omega

theorem toInt32_le (n : Nat) : toInt32 (n : Int) ≤ n := by
  unfold toInt32
  omega


/-! ## Claims on `_createmultisig_redeemScript` -/

/-- C1, as stated, fails: sixteen valid compressed keys with `nRequired = 1` satisfy
`1 ≤ nRequired ≤ n ≤ 16`, every key string is hex of a fully valid key, and the call
fails because the script of 547 bytes exceeds the limit of 520 bytes. -/
theorem createmultisig_sixteen_keys_too_large :
    (∀ ks ∈ List.replicate 16 hexG, addressCaseTaken nodeWithoutWallet ks = false ∧
      nodeWithoutWallet.IsHex ks = true ∧
      (CPubKey.ofVector (nodeWithoutWallet.ParseHex ks)).IsFullyValid nodeWithoutWallet = true) ∧
    _createmultisig_redeemScript nodeWithoutWallet 1 (List.replicate 16 hexG)
      = .error (.scriptTooLarge 547 520) := by
  set_option maxRecDepth 100000 in
  exact ⟨by decide, by rfl⟩

/-- C1, amended: for `1 ≤ nRequired ≤ n ≤ 16` and key strings that are hex of fully
valid public keys (and are not taken as wallet addresses), the call succeeds exactly
when the script size `3 + Σ (1 + key length)` is at most 520 bytes, and the script then
decodes back to the same `nRequired` and the same keys in the same order; when the
size exceeds 520 bytes the call fails with the script-size failure. -/
theorem createmultisig_roundtrip_within_size (env : KeyEnv) (nRequired : Int)
    (keys : List String) (h1 : 1 ≤ nRequired) (hn : nRequired ≤ keys.length)
    (h16 : keys.length ≤ 16)
    (hkeys : ∀ ks ∈ keys, addressCaseTaken env ks = false ∧ env.IsHex ks = true ∧
      (CPubKey.ofVector (env.ParseHex ks)).IsFullyValid env = true) :
    (scriptSize (parsedKeys env keys) ≤ MAX_SCRIPT_ELEMENT_SIZE →
      ∃ script, _createmultisig_redeemScript env nRequired keys = .ok script ∧
        decodeMultisig script = some (nRequired, parsedKeys env keys)) ∧
    (MAX_SCRIPT_ELEMENT_SIZE < scriptSize (parsedKeys env keys) →
      _createmultisig_redeemScript env nRequired keys
        = .error (.scriptTooLarge (scriptSize (parsedKeys env keys)) MAX_SCRIPT_ELEMENT_SIZE)) := by
  have hvalid := parsedKeys_valid env keys hkeys
  have hlen : (parsedKeys env keys).length = keys.length := by simp [parsedKeys]
  have hsz := GetScriptForMultisig_length nRequired (parsedKeys env keys) hvalid
  have hcast : toInt32 (keys.length : Int) = keys.length := toInt32_of_small _ (by omega)
  have hcall : _createmultisig_redeemScript env nRequired keys
      = if scriptSize (parsedKeys env keys) > MAX_SCRIPT_ELEMENT_SIZE then
          .error (.scriptTooLarge (scriptSize (parsedKeys env keys)) MAX_SCRIPT_ELEMENT_SIZE)
        else .ok (GetScriptForMultisig nRequired (parsedKeys env keys)) := by
    unfold _createmultisig_redeemScript
    rw [if_neg (by omega), hcast, if_neg (by omega), if_neg (by omega),
      gatherPubKeys_hex env keys hkeys]
    simp only [hsz]
  constructor
  · intro hs
    refine ⟨GetScriptForMultisig nRequired (parsedKeys env keys), ?_, ?_⟩
    · rw [hcall, if_neg (by omega)]
    · exact decodeMultisig_GetScriptForMultisig nRequired _ hvalid h1 (by omega) (by omega)
  · intro hs
    rw [hcall, if_pos hs]

/-- Witness of C1 amended: a 2-of-3 script over three valid compressed keys. -/
theorem createmultisig_roundtrip_within_size_witness :
    ∃ script, _createmultisig_redeemScript nodeWithoutWallet 2 [hexG, hex2G, hex3G] = .ok script ∧
      decodeMultisig script = some (2, parsedKeys nodeWithoutWallet [hexG, hex2G, hex3G]) := by
  set_option maxRecDepth 100000 in
  exact (createmultisig_roundtrip_within_size nodeWithoutWallet 2 [hexG, hex2G, hex3G]
    (by decide) (by decide) (by decide) (by decide)).1 (by decide)

/-- C2, as stated, fails: with seventeen keys the call fails with the
at-least-one-key failure when `nRequired = 0` and with the not-enough-keys failure
when `nRequired = 18`, not with the too-many-keys failure. -/
theorem createmultisig_seventeen_keys_other_failures :
    _createmultisig_redeemScript nodeWithoutWallet 0 (List.replicate 17 hexG)
      = .error .insufficientRequirement ∧
    _createmultisig_redeemScript nodeWithoutWallet 18 (List.replicate 17 hexG)
      = .error (.notEnoughKeys 17 18) := by
  exact ⟨by rfl, by rfl⟩

/-- C2, amended: for every key list with more than 16 entries (fewer than 2^31) and
every integer `nRequired` the call fails, and the guards decide in their order which
failure it is: at-least-one-key when `nRequired < 1`, not-enough-keys when `nRequired`
exceeds the number of keys, too-many-keys in every other case. -/
theorem createmultisig_over_sixteen_keys (env : KeyEnv) (nRequired : Int) (keys : List String)
    (h : 16 < keys.length) (hb : keys.length < 2147483648) :
    _createmultisig_redeemScript env nRequired keys
      = .error (if nRequired < 1 then .insufficientRequirement
          else if (keys.length : Int) < nRequired then .notEnoughKeys keys.length nRequired
          else .tooManyKeys) := by
  unfold _createmultisig_redeemScript
  rw [toInt32_of_small _ hb]
  by_cases h1 : nRequired < 1
  · simp [h1]
  · by_cases h2 : (keys.length : Int) < nRequired
    · simp [h1, h2]
    · simp [h1, h2, h]

/-- Witness of C2 amended: seventeen keys and `nRequired = 2` give too-many-keys. -/
theorem createmultisig_over_sixteen_keys_witness :
    _createmultisig_redeemScript nodeWithoutWallet 2 (List.replicate 17 hexG)
      = .error .tooManyKeys :=
  createmultisig_over_sixteen_keys nodeWithoutWallet 2 (List.replicate 17 hexG)
    (by decide) (by decide)

/-- C3: for every integer `nRequired` and every key list shorter than `nRequired`, the
call fails with the not-enough-keys failure, whatever the key strings are. -/
theorem createmultisig_not_enough_keys (env : KeyEnv) (nRequired : Int) (keys : List String)
    (h : (keys.length : Int) < nRequired) :
    _createmultisig_redeemScript env nRequired keys
      = .error (.notEnoughKeys keys.length nRequired) := by
  unfold _createmultisig_redeemScript
  have hle := toInt32_le keys.length
  rw [if_neg (by omega), if_pos (by omega)]

/-- Witness of C3: two signatures required, one string that is no key at all. -/
theorem createmultisig_not_enough_keys_witness :
    _createmultisig_redeemScript nodeWithEmptyWallet 2 ["not a key"]
      = .error (.notEnoughKeys 1 2) :=
  createmultisig_not_enough_keys nodeWithEmptyWallet 2 ["not a key"] (by decide)


theorem resolveKey_address_ok (env : KeyEnv) (ks : String) (k : CPubKey)
    (ha : addressCaseTaken env ks = true) (h : resolveKey env ks = .ok k) :
    ∃ w id, env.pwalletMain = some w ∧ env.decodeAddress ks = .KeyID id ∧
      w.GetPubKey id = some k ∧ k.IsFullyValid env = true := by
  unfold addressCaseTaken at ha
  unfold resolveKey at h
  cases hw : env.pwalletMain with
  | none => simp [hw] at ha
  | some w =>
    rw [hw] at ha
    simp only [Option.isSome_some, Bool.true_and] at ha
    simp only [hw, ha, if_true] at h
    cases hd : env.decodeAddress ks with
    | CNoDestination => simp [hd, addressGetKeyID] at h
    | ScriptID id => simp [hd, addressGetKeyID] at h
    | KeyID id =>
      simp only [hd, addressGetKeyID] at h
      cases hg : w.GetPubKey id with
      | none => simp [hg] at h
      | some k2 =>
        simp only [hg] at h
        split_ifs at h with hv
        cases h
        exact ⟨w, id, rfl, rfl, hg, by simpa using hv⟩

/-- C6, as stated, fails: for a wallet that holds no key and a string that is the
address of the key hash `[1]`, the address case is taken although the key store does
not hold the key, and the call fails there with the no-full-public-key failure. -/
theorem createmultisig_address_case_without_key :
    addressCaseTaken nodeWithEmptyWallet "BXaddress1" = true ∧
    nodeWithEmptyWallet.decodeAddress "BXaddress1" = .KeyID [1] ∧
    (nodeWithEmptyWallet.pwalletMain.bind (fun w => w.GetPubKey [1])) = none ∧
    _createmultisig_redeemScript nodeWithEmptyWallet 1 ["BXaddress1"]
      = .error (.noFullPublicKey "BXaddress1") := by
  exact ⟨by rfl, by rfl, by rfl, by rfl⟩

theorem keyUsed_iff (env : KeyEnv) (ks : String) (k : CPubKey) :
    keyUsed env ks k = true ↔
      k.IsFullyValid env = true ∧
      ((addressCaseTaken env ks = true ∧ ∃ w id, env.pwalletMain = some w ∧
          env.decodeAddress ks = .KeyID id ∧ w.GetPubKey id = some k) ∨
        (addressCaseTaken env ks = false ∧ env.IsHex ks = true ∧
          k = CPubKey.ofVector (env.ParseHex ks))) := by
  unfold keyUsed
  rw [Bool.and_eq_true]
  apply and_congr_right
  intro _
  by_cases ha : addressCaseTaken env ks = true
  · rw [if_pos ha]
    simp only [ha, true_and, Bool.true_eq_false, false_and, or_false]
    cases hw : env.pwalletMain with
    | none => simp
    | some w =>
      cases hd : env.decodeAddress ks with
      | CNoDestination => simp [addressGetKeyID]
      | ScriptID id => simp [addressGetKeyID]
      | KeyID id => simp [addressGetKeyID]
  · rw [if_neg ha]
    rw [Bool.not_eq_true] at ha
    simp [ha]

theorem resolveKey_ok_iff (env : KeyEnv) (ks : String) (k : CPubKey) :
    resolveKey env ks = .ok k ↔ keyUsed env ks k = true := by
  rw [keyUsed_iff]
  constructor
  · intro h
    have hv := resolveKey_ok_valid env ks k h
    refine ⟨hv, ?_⟩
    by_cases ha : addressCaseTaken env ks = true
    · left
      obtain ⟨w, id, hw, hd, hg, _⟩ := resolveKey_address_ok env ks k ha h
      exact ⟨ha, w, id, hw, hd, hg⟩
    · right
      rw [Bool.not_eq_true] at ha
      refine ⟨ha, ?_⟩
      by_cases hh : env.IsHex ks = true
      · by_cases hp : (CPubKey.ofVector (env.ParseHex ks)).IsFullyValid env = true
        · rw [resolveKey_hex env ks ha hh hp] at h
          cases h
          exact ⟨hh, rfl⟩
        · exfalso
          unfold resolveKey addressCaseTaken at *
          cases hw : env.pwalletMain with
          | none => simp [hw, hh, hp] at h
          | some w =>
            rw [hw] at ha
            simp only [Option.isSome_some, Bool.true_and] at ha
            simp [hw, ha, hh, hp] at h
      · exfalso
        unfold resolveKey addressCaseTaken at *
        cases hw : env.pwalletMain with
        | none => simp [hw, hh] at h
        | some w =>
          rw [hw] at ha
          simp only [Option.isSome_some, Bool.true_and] at ha
          simp [hw, ha, hh] at h
  · rintro ⟨hv, h | h⟩
    · obtain ⟨_, w, id, hw, hd, hg⟩ := h
      simp [resolveKey, hw, hd, addressIsValid, addressGetKeyID, hg, hv]
    · obtain ⟨ha, hh, rfl⟩ := h
      exact resolveKey_hex env ks ha hh hv

theorem gatherPubKeys_ok_iff (env : KeyEnv) (keys : List String) (pubkeys : List CPubKey) :
    gatherPubKeys env keys = .ok pubkeys ↔
      List.Forall₂ (fun ks k => keyUsed env ks k = true) keys pubkeys := by
  induction keys generalizing pubkeys with
  | nil =>
    simp only [gatherPubKeys, List.forall₂_nil_left_iff]
    constructor
    · intro h
      cases h
      rfl
    · intro h
      rw [h]
  | cons ks rest ih =>
    simp only [gatherPubKeys]
    constructor
    · intro h
      cases hr : resolveKey env ks with
      | error e => simp [hr] at h
      | ok k =>
        cases hg : gatherPubKeys env rest with
        | error e => simp [hr, hg] at h
        | ok ps =>
          simp only [hr, hg] at h
          cases h
          exact List.Forall₂.cons ((resolveKey_ok_iff env ks k).1 hr) ((ih ps).1 hg)
    · intro h
      cases h with
      | cons hk hrest =>
        rw [(resolveKey_ok_iff env ks _).2 hk, (ih _).2 hrest]

theorem gatherPubKeys_first_failure (env : KeyEnv) (pre : List String) (ks : String)
    (post : List String) (e : Failure)
    (hpre : ∀ k ∈ pre, ∃ pk, keyUsed env k pk = true) (hks : resolveKey env ks = .error e) :
    gatherPubKeys env (pre ++ ks :: post) = .error e := by
  induction pre with
  | nil => simp [gatherPubKeys, hks]
  | cons a rest ih =>
    obtain ⟨pk, hpk⟩ := hpre a (List.mem_cons_self _ _)
    have hi := ih (fun k hk => hpre k (List.mem_cons_of_mem _ hk))
    show gatherPubKeys env (a :: (rest ++ ks :: post)) = _
    simp only [gatherPubKeys, (resolveKey_ok_iff env a pk).2 hpk, hi]

theorem createmultisig_guards_passed (env : KeyEnv) (nRequired : Int) (keys : List String)
    (h1 : 1 ≤ nRequired) (hn : nRequired ≤ keys.length) (h16 : keys.length ≤ 16) :
    _createmultisig_redeemScript env nRequired keys
      = match gatherPubKeys env keys with
        | .error e => .error e
        | .ok pubkeys =>
          if (GetScriptForMultisig nRequired pubkeys).length > MAX_SCRIPT_ELEMENT_SIZE then
            .error (.scriptTooLarge (GetScriptForMultisig nRequired pubkeys).length
              MAX_SCRIPT_ELEMENT_SIZE)
          else .ok (GetScriptForMultisig nRequired pubkeys) := by
  unfold _createmultisig_redeemScript
  rw [if_neg (by omega), toInt32_of_small _ (by omega), if_neg (by omega), if_neg (by omega)]

theorem keyUsed_all_valid (env : KeyEnv) (keys : List String) (pubkeys : List CPubKey)
    (h : List.Forall₂ (fun ks k => keyUsed env ks k = true) keys pubkeys) :
    ∀ k ∈ pubkeys, k.IsValid = true := by
  induction h with
  | nil => simp
  | cons hk _ ih =>
    intro k hmem
    rcases List.mem_cons.1 hmem with rfl | hmem
    · have := ((keyUsed_iff env _ _).1 hk).1
      simp only [CPubKey.IsFullyValid, Bool.and_eq_true] at this
      exact this.1
    · exact ih k hmem

/-- C6, amended: key resolution does not fall through once the address case is taken,
and it is taken whenever a wallet is present and the string decodes as a valid address.
For every list of keys that passes the guards on the number of keys: the key used for a
string taken as an address is the one the key store holds for its key hash, the key
used for any other string is the one its hex digits encode, and both have to be fully
valid (`keyUsed`, spelled out in the first part).  When every key string has such a key
the script is built from exactly these keys in input order; a script the call returns
decodes to such keys.  Keys are resolved in input order and the first key string that
has no such key decides the failure: no-full-public-key when it is taken as an address
and the key store lacks the key, does-not-refer-to-a-key when it is a script address,
invalid-public-key when the stored or the parsed key is not fully valid or the string
is not hex. -/
theorem createmultisig_key_resolution (env : KeyEnv) (nRequired : Int) (keys : List String)
    (h1 : 1 ≤ nRequired) (hn : nRequired ≤ keys.length) (h16 : keys.length ≤ 16) :
    (∀ ks k, keyUsed env ks k = true ↔
      k.IsFullyValid env = true ∧
      ((addressCaseTaken env ks = true ∧ ∃ w id, env.pwalletMain = some w ∧
          env.decodeAddress ks = .KeyID id ∧ w.GetPubKey id = some k) ∨
        (addressCaseTaken env ks = false ∧ env.IsHex ks = true ∧
          k = CPubKey.ofVector (env.ParseHex ks)))) ∧
    (∀ pubkeys, List.Forall₂ (fun ks k => keyUsed env ks k = true) keys pubkeys →
      (scriptSize pubkeys ≤ MAX_SCRIPT_ELEMENT_SIZE →
        ∃ script, _createmultisig_redeemScript env nRequired keys = .ok script ∧
          decodeMultisig script = some (nRequired, pubkeys)) ∧
      (MAX_SCRIPT_ELEMENT_SIZE < scriptSize pubkeys →
        _createmultisig_redeemScript env nRequired keys
          = .error (.scriptTooLarge (scriptSize pubkeys) MAX_SCRIPT_ELEMENT_SIZE))) ∧
    (∀ script, _createmultisig_redeemScript env nRequired keys = .ok script →
      ∃ pubkeys, List.Forall₂ (fun ks k => keyUsed env ks k = true) keys pubkeys ∧
        decodeMultisig script = some (nRequired, pubkeys)) ∧
    (∀ pre ks post, keys = pre ++ ks :: post → (∀ k ∈ pre, ∃ pk, keyUsed env k pk = true) →
      (∀ w id, env.pwalletMain = some w → env.decodeAddress ks = .KeyID id →
        w.GetPubKey id = none →
        _createmultisig_redeemScript env nRequired keys = .error (.noFullPublicKey ks)) ∧
      (∀ w id, env.pwalletMain = some w → env.decodeAddress ks = .ScriptID id →
        _createmultisig_redeemScript env nRequired keys = .error (.notAKey ks)) ∧
      (∀ w id k, env.pwalletMain = some w → env.decodeAddress ks = .KeyID id →
        w.GetPubKey id = some k → k.IsFullyValid env = false →
        _createmultisig_redeemScript env nRequired keys = .error (.invalidPublicKey ks)) ∧
      (addressCaseTaken env ks = false →
        (env.IsHex ks = false ∨
          (CPubKey.ofVector (env.ParseHex ks)).IsFullyValid env = false) →
        _createmultisig_redeemScript env nRequired keys = .error (.invalidPublicKey ks))) := by
  have hcall := createmultisig_guards_passed env nRequired keys h1 hn h16
  refine ⟨keyUsed_iff env, ?_, ?_, ?_⟩
  · intro pubkeys hall
    have hvalid := keyUsed_all_valid env keys pubkeys hall
    have hlen : keys.length = pubkeys.length := List.Forall₂.length_eq hall
    have hsz := GetScriptForMultisig_length nRequired pubkeys hvalid
    rw [hcall, (gatherPubKeys_ok_iff env keys pubkeys).2 hall]
    simp only [hsz]
    constructor
    · intro hs
      refine ⟨GetScriptForMultisig nRequired pubkeys, by rw [if_neg (by omega)], ?_⟩
      exact decodeMultisig_GetScriptForMultisig nRequired pubkeys hvalid h1 (by omega)
        (by omega)
    · intro hs
      rw [if_pos hs]
  · intro script hs
    rw [hcall] at hs
    cases hg : gatherPubKeys env keys with
    | error e => simp [hg] at hs
    | ok pubkeys =>
      have hall := (gatherPubKeys_ok_iff env keys pubkeys).1 hg
      have hvalid := keyUsed_all_valid env keys pubkeys hall
      have hlen : keys.length = pubkeys.length := List.Forall₂.length_eq hall
      simp only [hg] at hs
      split_ifs at hs
      cases hs
      exact ⟨pubkeys, hall, decodeMultisig_GetScriptForMultisig nRequired pubkeys hvalid h1
        (by omega) (by omega)⟩
  · intro pre ks post hkeys hpre
    have hfail : ∀ e, resolveKey env ks = .error e →
        _createmultisig_redeemScript env nRequired keys = .error e := by
      intro e he
      rw [hcall, hkeys, gatherPubKeys_first_failure env pre ks post e hpre he]
    refine ⟨?_, ?_, ?_, ?_⟩
    · intro w id hw hd hg
      apply hfail
      simp [resolveKey, hw, hd, addressIsValid, addressGetKeyID, hg]
    · intro w id hw hd
      apply hfail
      simp [resolveKey, hw, hd, addressIsValid, addressGetKeyID]
    · intro w id k hw hd hg hv
      apply hfail
      simp [resolveKey, hw, hd, addressIsValid, addressGetKeyID, hg, hv]
    · intro ha hbad
      apply hfail
      unfold addressCaseTaken at ha
      unfold resolveKey
      cases hw : env.pwalletMain with
      | none =>
        rcases hbad with hh | hp
        · simp [hh]
        · by_cases hh : env.IsHex ks = true
          · simp [hh, hp]
          · simp [hh]
      | some w =>
        rw [hw] at ha
        simp only [Option.isSome_some, Bool.true_and] at ha
        rcases hbad with hh | hp
        · simp [ha, hh]
        · by_cases hh : env.IsHex ks = true
          · simp [ha, hh, hp]
          · simp [ha, hh]

/-- Witness of C6 amended, on lists of two keys.  With a wallet that lacks the key, the
hex string of the generator point resolves and the address string after it fails with
no-full-public-key; with a wallet that holds the key of the address, the address string
and a hex string give the 2-of-2 script over the stored key and the parsed key. -/
theorem createmultisig_key_resolution_witness :
    _createmultisig_redeemScript nodeWithEmptyWallet 1 [hexG, "BXaddress1"]
      = .error (.noFullPublicKey "BXaddress1") ∧
    (∃ script, _createmultisig_redeemScript nodeWithKeyWallet 2 ["BXaddress1", hex2G]
        = .ok script ∧
      decodeMultisig script
        = some (2, [⟨parseHexChars hexG.data⟩, CPubKey.ofVector (parseHexChars hex2G.data)])) := by
  set_option maxRecDepth 100000 in
  exact ⟨((createmultisig_key_resolution nodeWithEmptyWallet 1 [hexG, "BXaddress1"]
      (by decide) (by decide) (by decide)).2.2.2 [hexG] "BXaddress1" [] (by rfl)
      (by
        intro k hk
        rw [List.mem_singleton] at hk
        subst hk
        exact ⟨CPubKey.ofVector (parseHexChars hexG.data), by decide⟩)).1
      ⟨fun _ => none⟩ [1] (by rfl) (by rfl) (by rfl),
    ((createmultisig_key_resolution nodeWithKeyWallet 2 ["BXaddress1", hex2G]
      (by decide) (by decide) (by decide)).2.1
      [⟨parseHexChars hexG.data⟩, CPubKey.ofVector (parseHexChars hex2G.data)]
      (List.Forall₂.cons (by decide) (List.Forall₂.cons (by decide) List.Forall₂.nil))).1
      (by decide)⟩

/-! ## Claims on `verifymessage` -/

theorem verifymessage_keyhash (env : SigEnv) (strAddress strSign strMessage : String)
    (id : CKeyID) (ha : env.decodeAddress strAddress = .KeyID id)
    (hb : (env.DecodeBase64 strSign).2 = false) :
    verifymessage env strAddress strSign strMessage
      = match RecoverCompact env (env.GetHash [env.strMessageMagic, strMessage])
            (env.DecodeBase64 strSign).1 with
        | none => .ok false
        | some pubkey => .ok (env.GetID pubkey == id) := by
  simp [verifymessage, ha, hb, addressIsValid, addressGetKeyID]

/-- C4, as stated, fails: for a key-hash address and the valid base64 strings "" (no
bytes) and "AA==" (one byte) the call returns `false` and raises no failure. -/
theorem verifymessage_short_signature_returns_false :
    sigNode.decodeAddress "BXaddress1" = .KeyID [1] ∧
    sigNode.DecodeBase64 "AA==" = ([0], false) ∧
    verifymessage sigNode "BXaddress1" "AA==" "hello" = .ok false ∧
    verifymessage sigNode "BXaddress1" "" "hello" = .ok false := by
  exact ⟨by rfl, by rfl, by rfl, by rfl⟩

/-- C4, amended: for every address that decodes to a key hash and every signature
string that is valid base64 but whose decoded length is not 65 bytes, the call returns
`false`; the malformed-signature failure is raised exactly when the base64 decoding
itself reports the string as not valid. -/
theorem verifymessage_wrong_length_is_false (env : SigEnv)
    (strAddress strSign strMessage : String) (id : CKeyID)
    (ha : env.decodeAddress strAddress = .KeyID id) :
    ((env.DecodeBase64 strSign).2 = false → (env.DecodeBase64 strSign).1.length ≠ 65 →
      verifymessage env strAddress strSign strMessage = .ok false) ∧
    (verifymessage env strAddress strSign strMessage = .error .malformedBase64 ↔
      (env.DecodeBase64 strSign).2 = true) := by
  constructor
  · intro hb hl
    rw [verifymessage_keyhash env _ _ _ id ha hb]
    simp [RecoverCompact, hl]
  · constructor
    · intro h
      by_contra hb
      rw [Bool.not_eq_true] at hb
      rw [verifymessage_keyhash env _ _ _ id ha hb] at h
      split at h <;> cases h
    · intro hb
      simp [verifymessage, ha, hb, addressIsValid, addressGetKeyID]

/-- Witness of C4 amended: a signature of one byte verifies as `false`. -/
theorem verifymessage_wrong_length_is_false_witness :
    verifymessage sigNode "BXaddress1" "AA==" "hello" = .ok false :=
  (verifymessage_wrong_length_is_false sigNode "BXaddress1" "AA==" "hello" [1] (by rfl)).1
    (by rfl) (by decide)

/-- C5: for every address that decodes to a key hash `id`, every signature string that
is valid base64 and every message, the call raises no failure and returns a boolean
that is `true` if and only if recovery of a public key from the decoded signature over
the digest of the magic string and the message succeeds and the key hash of the
recovered key equals `id`; a failed recovery yields `false`. -/
theorem verifymessage_true_iff_recovered (env : SigEnv)
    (strAddress strSign strMessage : String) (id : CKeyID)
    (ha : env.decodeAddress strAddress = .KeyID id)
    (hb : (env.DecodeBase64 strSign).2 = false) :
    ∃ b, verifymessage env strAddress strSign strMessage = .ok b ∧
      (b = true ↔ ∃ pubkey,
        RecoverCompact env (env.GetHash [env.strMessageMagic, strMessage])
          (env.DecodeBase64 strSign).1 = some pubkey ∧ env.GetID pubkey = id) ∧
      (RecoverCompact env (env.GetHash [env.strMessageMagic, strMessage])
          (env.DecodeBase64 strSign).1 = none → b = false) := by
  rw [verifymessage_keyhash env _ _ _ id ha hb]
  cases hr : RecoverCompact env (env.GetHash [env.strMessageMagic, strMessage])
      (env.DecodeBase64 strSign).1 with
  | none => exact ⟨false, rfl, by simp, fun _ => rfl⟩
  | some pubkey => exact ⟨env.GetID pubkey == id, rfl, by simp, by simp⟩

/-- Witness of C5: a signature of 65 bytes from which the key of the address is
recovered verifies as `true`. -/
theorem verifymessage_true_iff_recovered_witness :
    ∃ b, verifymessage sigNode "BXaddress1" (String.mk (List.replicate 87 'A' ++ ['=']))
        "hello" = .ok b ∧
      (b = true ↔ ∃ pubkey,
        RecoverCompact sigNode (sigNode.GetHash [sigNode.strMessageMagic, "hello"])
          (sigNode.DecodeBase64 (String.mk (List.replicate 87 'A' ++ ['=']))).1 = some pubkey ∧
          sigNode.GetID pubkey = [1]) ∧
      (RecoverCompact sigNode (sigNode.GetHash [sigNode.strMessageMagic, "hello"])
          (sigNode.DecodeBase64 (String.mk (List.replicate 87 'A' ++ ['=']))).1 = none →
        b = false) :=
  verifymessage_true_iff_recovered sigNode "BXaddress1"
    (String.mk (List.replicate 87 'A' ++ ['='])) "hello" [1] (by rfl) (by rfl)


/-! ## The scan loop -/

theorem recordsOfTx_false (env : ChainEnv) (timestamp : Int) (tx : CTransaction) :
    recordsOfTx env false timestamp tx = (validRecord env timestamp tx).toList := by
  unfold recordsOfTx validRecord
  split <;> simp_all

theorem foldl_records (env : ChainEnv) (timestamp : Int) (vtx : List CTransaction)
    (init : List Object) :
    vtx.foldl (fun records tx => records ++ recordsOfTx env false timestamp tx) init
      = init ++ vtx.filterMap (validRecord env timestamp) := by
  induction vtx generalizing init with
  | nil => simp
  | cons tx rest ih =>
    rw [List.foldl_cons, ih, recordsOfTx_false, List.filterMap_cons]
    cases validRecord env timestamp tx <;> simp

theorem scanBlock_false (env : ChainEnv) (pindex : CBlockIndex) (st : ScanState) :
    scanBlock env false pindex st
      = { records := st.records ++ blockValidRecords env pindex,
          reads := st.reads ++ [pindex] } := by
  unfold scanBlock blockValidRecords
  cases env.ReadBlockFromDisk pindex with
  | none => simp
  | some block => simp [foldl_records]

theorem scanBlock_reads (env : ChainEnv) (showErrors : Bool) (pindex : CBlockIndex)
    (st : ScanState) : (scanBlock env showErrors pindex st).reads = st.reads ++ [pindex] := by
  unfold scanBlock
  cases env.ReadBlockFromDisk pindex <;> rfl

theorem walkOrder_genesis (timeBegin : Int) (nTime nHeight count : Nat) :
    walkOrder timeBegin (.genesis nTime nHeight) count = [] := by
  simp [walkOrder, chainFrom, CBlockIndex.hasParent]

theorem walkOrder_child_step (timeBegin : Int) (nTime nHeight : Nat) (pprev : CBlockIndex)
    (count : Nat)
    (h : (CBlockIndex.child nTime nHeight pprev).GetBlockTime > timeBegin - 30 * 24 * 60 * 60
      ∧ count > 0) :
    walkOrder timeBegin (.child nTime nHeight pprev) count
      = .child nTime nHeight pprev :: walkOrder timeBegin pprev (count - 1) := by
  obtain ⟨ht, hc⟩ := h
  obtain ⟨c, rfl⟩ : ∃ c, count = c + 1 := ⟨count - 1, by omega⟩
  have hp : (CBlockIndex.hasParent (.child nTime nHeight pprev)
      && withinHorizon timeBegin (.child nTime nHeight pprev)) = true := by
    simp only [CBlockIndex.hasParent, withinHorizon, Bool.true_and, decide_eq_true_eq]
    exact ht
  simp only [walkOrder, chainFrom, List.takeWhile_cons, hp, if_true, List.take_succ_cons,
    Nat.add_sub_cancel]

theorem walkOrder_child_stop (timeBegin : Int) (nTime nHeight : Nat) (pprev : CBlockIndex)
    (count : Nat)
    (h : ¬ ((CBlockIndex.child nTime nHeight pprev).GetBlockTime > timeBegin - 30 * 24 * 60 * 60
      ∧ count > 0)) :
    walkOrder timeBegin (.child nTime nHeight pprev) count = [] := by
  by_cases hc : count = 0
  · simp [walkOrder, hc]
  · have ht : ¬ (CBlockIndex.child nTime nHeight pprev).GetBlockTime
        > timeBegin - 30 * 24 * 60 * 60 := fun ht => h ⟨ht, by omega⟩
    have hp : (CBlockIndex.hasParent (.child nTime nHeight pprev)
        && withinHorizon timeBegin (.child nTime nHeight pprev)) = false := by
      simp only [CBlockIndex.hasParent, withinHorizon, Bool.true_and, decide_eq_false_iff_not]
      exact ht
    simp [walkOrder, chainFrom, List.takeWhile_cons, hp]

theorem scanLoop_reads (env : ChainEnv) (showErrors : Bool) (timeBegin : Int)
    (pindex : CBlockIndex) (count : Nat) (st : ScanState) :
    (scanLoop env showErrors timeBegin pindex count st).reads
      = st.reads ++ walkOrder timeBegin pindex count := by
  induction pindex generalizing count st with
  | genesis nTime nHeight => simp [scanLoop, walkOrder_genesis]
  | child nTime nHeight pprev ih =>
    unfold scanLoop
    split_ifs with h
    · rw [ih, scanBlock_reads, walkOrder_child_step _ _ _ _ _ h]
      simp
    · rw [walkOrder_child_stop _ _ _ _ _ h]
      simp

theorem scanLoop_false (env : ChainEnv) (timeBegin : Int) (pindex : CBlockIndex) (count : Nat)
    (st : ScanState) :
    scanLoop env false timeBegin pindex count st
      = { records := st.records ++ concatRecords env (walkOrder timeBegin pindex count),
          reads := st.reads ++ walkOrder timeBegin pindex count } := by
  induction pindex generalizing count st with
  | genesis nTime nHeight => simp [scanLoop, walkOrder_genesis, concatRecords]
  | child nTime nHeight pprev ih =>
    unfold scanLoop
    split_ifs with h
    · rw [ih, scanBlock_false, walkOrder_child_step _ _ _ _ _ h]
      simp [concatRecords]
    · rw [walkOrder_child_stop _ _ _ _ _ h]
      simp [concatRecords]

theorem toUint32_toInt32 (n : Int) : toUint32 (toInt32 n) = (n % 4294967296).toNat := by
  unfold toUint32 toInt32
  congr 1
  omega

theorem gettradingdataScan_accepted (env : ChainEnv) (maxBlocks : Option Int) :
    gettradingdataScan env false (paramsOf maxBlocks)
      = .ok { records := concatRecords env
                (walkOrder env.chainTip.GetBlockTime env.chainTip (blockBound maxBlocks)),
              reads := walkOrder env.chainTip.GetBlockTime env.chainTip (blockBound maxBlocks) } := by
  cases maxBlocks with
  | none =>
    simp [gettradingdataScan, paramsOf, countOfBlocksParam, showErrorsParam, scanLoop_false,
      blockBound]
  | some n =>
    simp [gettradingdataScan, paramsOf, countOfBlocksParam, showErrorsParam, scanLoop_false,
      blockBound, RPCTypeCheck, RPCTypeCheckFrom, Value.type, Value.get_int, toUint32_toInt32]

theorem walkOrder_within (timeBegin : Int) (pindex : CBlockIndex) (count : Nat) :
    ∀ b ∈ walkOrder timeBegin pindex count,
      b.GetBlockTime > timeBegin - 30 * 24 * 60 * 60 := by
  intro b hb
  have h1 := List.mem_of_mem_take hb
  have h2 := List.mem_takeWhile_imp h1
  simp only [withinHorizon, Bool.and_eq_true, decide_eq_true_eq] at h2
  exact h2.2

theorem takeWhile_stops (p : CBlockIndex → Bool) (pre : List CBlockIndex) (b : CBlockIndex)
    (post : List CBlockIndex) (hb : p b = false) :
    (pre ++ b :: post).takeWhile p <+: pre := by
  induction pre with
  | nil => simp [List.takeWhile_cons, hb]
  | cons a rest ih =>
    rw [List.cons_append, List.takeWhile_cons]
    by_cases ha : p a = true
    · rw [if_pos ha]
      exact (List.cons_prefix_cons).2 ⟨rfl, ih⟩
    · rw [if_neg ha]
      exact List.nil_prefix

theorem walkOrder_stops (timeBegin : Int) (pindex : CBlockIndex) (count : Nat)
    (pre : List CBlockIndex) (b : CBlockIndex) (post : List CBlockIndex)
    (hc : chainFrom pindex = pre ++ b :: post)
    (hb : ¬ b.GetBlockTime > timeBegin - 30 * 24 * 60 * 60) :
    walkOrder timeBegin pindex count <+: pre := by
  unfold walkOrder
  rw [hc]
  exact (List.take_prefix _ _).trans
    (takeWhile_stops _ pre b post (by
      have : withinHorizon timeBegin b = false := by
        simp only [withinHorizon, decide_eq_false_iff_not]
        exact hb
      simp [this]))

theorem walkOrder_prefix_chain (timeBegin : Int) (pindex : CBlockIndex) (count : Nat) :
    walkOrder timeBegin pindex count <+: chainFrom pindex :=
  (List.take_prefix _ _).trans (List.takeWhile_prefix _)

theorem walkOrder_length (timeBegin : Int) (pindex : CBlockIndex) (count : Nat) :
    (walkOrder timeBegin pindex count).length ≤ count := by
  unfold walkOrder
  exact List.length_take_le _ _


theorem gettradingdata_accepted (env : ChainEnv) (maxBlocks : Option Int) :
    gettradingdata env false (paramsOf maxBlocks)
      = .ok (concatRecords env
          (walkOrder env.chainTip.GetBlockTime env.chainTip (blockBound maxBlocks))) := by
  simp [gettradingdata, gettradingdataScan_accepted]

/-! ## Claims on `gettradingdata` -/

/-- C7: what the code does with a request that supplies both parameters.  Every call
with two or more parameters, whatever they are, is refused with the help text by the
guard `params.size() > 1`, so the branch `params.size() == 2` that reads `errors` is
never reached and `showErrors` is `false` in every call that is accepted. -/
theorem gettradingdata_two_params_refused (env : ChainEnv) (fHelp : Bool) (maxBlocks : Int)
    (includeErrors : Bool) (v1 v2 : Value) (rest : List Value) :
    gettradingdata env fHelp [.int maxBlocks, .bool includeErrors] = .error .help ∧
    gettradingdata env fHelp (v1 :: v2 :: rest) = .error .help ∧
    showErrorsParam [] = .ok false ∧ showErrorsParam [v1] = .ok false := by
  refine ⟨?_, ?_, rfl, rfl⟩ <;> simp [gettradingdata, gettradingdataScan]

/-- C8: for every chain and every non-negative `maxBlocks`, the call is accepted and
hands at most `maxBlocks` index entries to `ReadBlockFromDisk`; the entries are those
of the walk, whether or not their read succeeds, so a failed read counts as one of
them.  With `maxBlocks = 0` no block is read and the result is the empty sequence. -/
theorem gettradingdata_reads_at_most_maxBlocks (env : ChainEnv) (maxBlocks : Int)
    (h : 0 ≤ maxBlocks) :
    ∃ st, gettradingdataScan env false [.int maxBlocks] = .ok st ∧
      gettradingdata env false [.int maxBlocks] = .ok st.records ∧
      (st.reads.length : Int) ≤ maxBlocks ∧
      st.reads = walkOrder env.chainTip.GetBlockTime env.chainTip (maxBlocks % 4294967296).toNat ∧
      (maxBlocks = 0 → st.reads = [] ∧ st.records = []) := by
  have hs := gettradingdataScan_accepted env (some maxBlocks)
  have hg := gettradingdata_accepted env (some maxBlocks)
  simp only [paramsOf, blockBound] at hs hg
  refine ⟨_, hs, hg, ?_, rfl, ?_⟩
  · have := walkOrder_length env.chainTip.GetBlockTime env.chainTip
      (maxBlocks % 4294967296).toNat
    simp only
    omega
  · intro h0
    subst h0
    simp [walkOrder, concatRecords]

/-- Witness of C8: with `maxBlocks = 1` on the sample chain only the tip is handed to
`ReadBlockFromDisk`; its read fails, and it still uses up the bound. -/
theorem gettradingdata_reads_at_most_maxBlocks_witness :
    ∃ st, gettradingdataScan chainNode false [.int 1] = .ok st ∧
      gettradingdata chainNode false [.int 1] = .ok st.records ∧
      (st.reads.length : Int) ≤ 1 ∧
      st.reads = walkOrder chainNode.chainTip.GetBlockTime chainNode.chainTip
        ((1 : Int) % 4294967296).toNat ∧
      ((1 : Int) = 0 → st.reads = [] ∧ st.records = []) :=
  gettradingdata_reads_at_most_maxBlocks chainNode 1 (by decide)

/-- C9: for every chain and every accepted call, each index entry handed to
`ReadBlockFromDisk` (so each block whose transactions are decoded) has a block-index
time strictly greater than the tip time minus `30*24*60*60` seconds, and the entries
read are a prefix of the entries before the first one on the parent chain that fails
this test: the walk stops there, whatever the times of the blocks further back. -/
theorem gettradingdata_reads_within_horizon (env : ChainEnv) (maxBlocks : Option Int) :
    ∃ st, gettradingdataScan env false (paramsOf maxBlocks) = .ok st ∧
      (∀ b ∈ st.reads,
        b.GetBlockTime > env.chainTip.GetBlockTime - 30 * 24 * 60 * 60) ∧
      (∀ pre b post, chainFrom env.chainTip = pre ++ b :: post →
        ¬ b.GetBlockTime > env.chainTip.GetBlockTime - 30 * 24 * 60 * 60 →
        st.reads <+: pre) := by
  refine ⟨_, gettradingdataScan_accepted env maxBlocks, ?_, ?_⟩
  · exact walkOrder_within _ _ _
  · intro pre b post hc hb
    exact walkOrder_stops _ _ _ pre b post hc hb

/-- Witness of C9: on the sample chain the block at height 2 is older than the horizon,
so the blocks read are among those at heights 4 and 3; the block at height 1, whose
time lies within the horizon again, is not read. -/
theorem gettradingdata_reads_within_horizon_witness :
    ∃ st, gettradingdataScan chainNode false [] = .ok st ∧
      st.reads <+: [sampleTip, .child 9999000 3 (.child 7000000 2 (.child 9998000 1 (.genesis 0 0)))] ∧
      withinHorizon sampleTip.GetBlockTime (.child 9998000 1 (.genesis 0 0)) = true := by
  obtain ⟨st, h1, _, h3⟩ := gettradingdata_reads_within_horizon chainNode none
  exact ⟨st, h1, h3 _ (.child 7000000 2 (.child 9998000 1 (.genesis 0 0)))
    [.child 9998000 1 (.genesis 0 0), .genesis 0 0] (by rfl) (by decide), by decide⟩

/-- C10: every call that is accepted has `includeErrors` false, and its result is the
concatenation, over the blocks visited in walk order (the tip first, then successive
parents), of the records of each block: none for a block whose read fails, and for a
block that is read one record for each transaction that decodes as `Valid`, in the
order of the transactions, `Empty` and `Error` ones being dropped.  The blocks visited
do not depend on whether reads succeed, so a failed read does not stop the walk. -/
theorem gettradingdata_valid_records_in_walk_order (env : ChainEnv) (maxBlocks : Option Int) :
    ∃ st, gettradingdataScan env false (paramsOf maxBlocks) = .ok st ∧
      gettradingdata env false (paramsOf maxBlocks) = .ok st.records ∧
      st.records = concatRecords env st.reads ∧
      st.reads = walkOrder env.chainTip.GetBlockTime env.chainTip (blockBound maxBlocks) ∧
      st.reads <+: chainFrom env.chainTip ∧
      (∀ b, env.ReadBlockFromDisk b = none → blockValidRecords env b = []) ∧
      (∀ b block, env.ReadBlockFromDisk b = some block →
        blockValidRecords env b = block.vtx.filterMap (validRecord env block.GetBlockTime)) := by
  refine ⟨_, gettradingdataScan_accepted env maxBlocks, gettradingdata_accepted env maxBlocks,
    rfl, rfl, walkOrder_prefix_chain _ _ _, ?_, ?_⟩
  · intro b hb
    simp [blockValidRecords, hb]
  · intro b block hb
    simp [blockValidRecords, hb]

/-- Witness of C10: on the sample chain the read of the tip fails, the walk goes on to
the block at height 3, and the result holds the records of its two `Valid`
transactions, in their order. -/
theorem gettradingdata_valid_records_in_walk_order_witness :
    blockValidRecords chainNode sampleTip = [] ∧
    gettradingdata chainNode false []
      = .ok [[("timestamp", .int 9999000), ("txid", .str "aa01"), ("to", .str "snodekey"),
              ("xid", .str "swap1"), ("from", .str "BLOCK"), ("fromAmount", .real 100),
              ("to", .str "LTC"), ("toAmount", .real 5)],
             [("timestamp", .int 9999000), ("txid", .str "aa01"), ("to", .str "snodekey"),
              ("xid", .str "swap1"), ("from", .str "BLOCK"), ("fromAmount", .real 100),
              ("to", .str "LTC"), ("toAmount", .real 5)]] := by
  obtain ⟨st, _, h2, h3, h4, _, h6, _⟩ :=
    gettradingdata_valid_records_in_walk_order chainNode none
  refine ⟨h6 sampleTip (by rfl), ?_⟩
  rw [show paramsOf none = [] from rfl] at h2
  rw [h2, h3, h4]
  exact congrArg Except.ok (by decide)


/-! ## Claims on `validateaddress` -/

/-- C11: for every string that does not decode as a valid address, the call returns the
object with the single field `isvalid = false`, and its log of locks and wallet lookups
is empty: neither the wallet nor the lock of the chain state is touched. -/
theorem validateaddress_invalid_address (env : AddrEnv) (str : String)
    (h : addressIsValid (env.decodeAddress str) = false) :
    validateaddressTrace env false [.str str] = .ok ([("isvalid", .bool false)], []) ∧
    validateaddress env false [.str str] = .ok [("isvalid", .bool false)] := by
  have ht : validateaddressTrace env false [.str str] = .ok ([("isvalid", .bool false)], []) := by
    simp [validateaddressTrace, Value.get_str, h]
  exact ⟨ht, by simp [validateaddress, ht]⟩

/-- Witness of C11: the string "not-an-address". -/
theorem validateaddress_invalid_address_witness :
    validateaddressTrace addrNode false [.str "not-an-address"]
      = .ok ([("isvalid", .bool false)], []) ∧
    validateaddress addrNode false [.str "not-an-address"] = .ok [("isvalid", .bool false)] :=
  validateaddress_invalid_address addrNode "not-an-address" (by rfl)

theorem validateaddress_keyhash_owned (env : AddrEnv) (wallet : AddressWallet) (str : String)
    (keyID : CKeyID) (he : env.ENABLE_WALLET = true) (hw : env.pwalletMain = some wallet)
    (hd : env.decodeAddress str = .KeyID keyID)
    (hm : wallet.IsMine (.KeyID keyID) ≠ ISMINE_NO) :
    validateaddress env false [.str str]
      = .ok ([("isvalid", .bool true), ("address", .str (env.encodeAddress (.KeyID keyID))),
              ("ismine", .bool (decide
                (wallet.IsMine (.KeyID keyID) &&& env.ISMINE_SPENDABLE ≠ 0))),
              ("iswatchonly", .bool (decide
                (wallet.IsMine (.KeyID keyID) &&& env.ISMINE_WATCH_ONLY ≠ 0))),
              ("isscript", .bool false)]
            ++ (if wallet.IsMine (.KeyID keyID) = env.ISMINE_SPENDABLE then
                  [("pubkey", .str (env.HexStr ((wallet.GetPubKey keyID).getD ⟨[]⟩).vch)),
                   ("iscompressed", .bool ((wallet.GetPubKey keyID).getD ⟨[]⟩).IsCompressed)]
                else [])
            ++ (match wallet.mapAddressBook (.KeyID keyID) with
                | some name => [("account", .str name)]
                | none => [])) := by
  have hown : ownedDetail env wallet (wallet.IsMine (.KeyID keyID)) (.KeyID keyID)
      = (("iswatchonly", .bool (decide
            (wallet.IsMine (.KeyID keyID) &&& env.ISMINE_WATCH_ONLY ≠ 0)))
          :: (DescribeAddressVisitor env wallet (wallet.IsMine (.KeyID keyID)) (.KeyID keyID)).1,
        (DescribeAddressVisitor env wallet (wallet.IsMine (.KeyID keyID)) (.KeyID keyID)).2) := by
    unfold ownedDetail
    rw [if_pos hm]
  simp only [validateaddress, validateaddressTrace, Value.get_str, hd, addressIsValid, he, hw,
    hown, DescribeAddressVisitor]
  by_cases hs : wallet.IsMine (.KeyID keyID) = env.ISMINE_SPENDABLE
  · simp [hs]
  · simp [hs]

/-- C12, as stated, fails for a mask with both flags set: for the key hash `[3]` the
wallet sets the spendable and the watch-only flag (mask 5 with the flag values 1 and 4,
mask 3 with the flag values 1 and 2); the address is valid and owned, and the response
has `ismine = true` but neither `pubkey` nor `iscompressed`. -/
theorem validateaddress_both_flags_without_pubkey :
    addrNode.decodeAddress "BXaddress3" = .KeyID [3] ∧
    ownerWallet.IsMine (.KeyID [3]) = addrNode.ISMINE_SPENDABLE ||| addrNode.ISMINE_WATCH_ONLY ∧
    ownerWallet.IsMine (.KeyID [3]) ≠ ISMINE_NO ∧
    validateaddress addrNode false [.str "BXaddress3"]
      = .ok [("isvalid", .bool true), ("address", .str "BXaddress3"), ("ismine", .bool true),
             ("iswatchonly", .bool true), ("isscript", .bool false)] ∧
    validateaddress addrNodeTwoFlags false [.str "BXaddress3"]
      = .ok [("isvalid", .bool true), ("address", .str "BXaddress3"), ("ismine", .bool true),
             ("iswatchonly", .bool true), ("isscript", .bool false)] := by
  exact ⟨by rfl, by decide, by decide, by rfl, by rfl⟩

/-- C12, amended: for every valid key-hash address that the wallet classifies as owned,
the response has `isscript = false`, and the fields `pubkey` and `iscompressed` are
present exactly when the ownership mask equals `ISMINE_SPENDABLE`, while `ismine` is
`true` exactly when the mask has the spendable flag set.  For every mask that is a
single classification (it equals `ISMINE_SPENDABLE`, or it does not have the spendable
flag) the fields are therefore present exactly when the same response has
`ismine = true`. -/
theorem validateaddress_keyhash_pubkey_iff_exactly_spendable (env : AddrEnv)
    (wallet : AddressWallet) (str : String) (keyID : CKeyID)
    (he : env.ENABLE_WALLET = true) (hw : env.pwalletMain = some wallet)
    (hd : env.decodeAddress str = .KeyID keyID)
    (hm : wallet.IsMine (.KeyID keyID) ≠ ISMINE_NO) :
    ∃ ret, validateaddress env false [.str str] = .ok ret ∧
      ("isscript", Value.bool false) ∈ ret ∧
      ("pubkey" ∈ fieldNames ret ↔ wallet.IsMine (.KeyID keyID) = env.ISMINE_SPENDABLE) ∧
      ("iscompressed" ∈ fieldNames ret ↔ wallet.IsMine (.KeyID keyID) = env.ISMINE_SPENDABLE) ∧
      (("ismine", Value.bool true) ∈ ret ↔
        wallet.IsMine (.KeyID keyID) &&& env.ISMINE_SPENDABLE ≠ 0) ∧
      ((wallet.IsMine (.KeyID keyID) = env.ISMINE_SPENDABLE ∨
          wallet.IsMine (.KeyID keyID) &&& env.ISMINE_SPENDABLE = 0) →
        ("pubkey" ∈ fieldNames ret ↔ ("ismine", Value.bool true) ∈ ret) ∧
        ("iscompressed" ∈ fieldNames ret ↔ ("ismine", Value.bool true) ∈ ret)) := by
  have hp : ∀ ret : Object,
      ("pubkey" ∈ fieldNames ret ↔ wallet.IsMine (.KeyID keyID) = env.ISMINE_SPENDABLE) →
      ("iscompressed" ∈ fieldNames ret ↔ wallet.IsMine (.KeyID keyID) = env.ISMINE_SPENDABLE) →
      (("ismine", Value.bool true) ∈ ret ↔
        wallet.IsMine (.KeyID keyID) &&& env.ISMINE_SPENDABLE ≠ 0) →
      ((wallet.IsMine (.KeyID keyID) = env.ISMINE_SPENDABLE ∨
          wallet.IsMine (.KeyID keyID) &&& env.ISMINE_SPENDABLE = 0) →
        ("pubkey" ∈ fieldNames ret ↔ ("ismine", Value.bool true) ∈ ret) ∧
        ("iscompressed" ∈ fieldNames ret ↔ ("ismine", Value.bool true) ∈ ret)) := by
    intro ret h3 h4 h5 hsingle
    have hagree : wallet.IsMine (.KeyID keyID) = env.ISMINE_SPENDABLE ↔
        wallet.IsMine (.KeyID keyID) &&& env.ISMINE_SPENDABLE ≠ 0 := by
      constructor
      · intro hs hz
        rw [← hs, Nat.and_self] at hz
        exact hm hz
      · intro hnz
        rcases hsingle with hs | hz
        · exact hs
        · exact absurd hz hnz
    exact ⟨h3.trans (hagree.trans h5.symm), h4.trans (hagree.trans h5.symm)⟩
  refine ⟨_, validateaddress_keyhash_owned env wallet str keyID he hw hd hm, ?_, ?_, ?_, ?_, ?_⟩
  · simp
  · by_cases hs : wallet.IsMine (.KeyID keyID) = env.ISMINE_SPENDABLE <;>
      cases wallet.mapAddressBook (.KeyID keyID) <;> simp [hs, fieldNames]
  · by_cases hs : wallet.IsMine (.KeyID keyID) = env.ISMINE_SPENDABLE <;>
      cases wallet.mapAddressBook (.KeyID keyID) <;> simp [hs, fieldNames]
  · by_cases hs : wallet.IsMine (.KeyID keyID) = env.ISMINE_SPENDABLE <;>
      cases wallet.mapAddressBook (.KeyID keyID) <;> simp [hs]
  · apply hp
    · by_cases hs : wallet.IsMine (.KeyID keyID) = env.ISMINE_SPENDABLE <;>
        cases wallet.mapAddressBook (.KeyID keyID) <;> simp [hs, fieldNames]
    · by_cases hs : wallet.IsMine (.KeyID keyID) = env.ISMINE_SPENDABLE <;>
        cases wallet.mapAddressBook (.KeyID keyID) <;> simp [hs, fieldNames]
    · by_cases hs : wallet.IsMine (.KeyID keyID) = env.ISMINE_SPENDABLE <;>
        cases wallet.mapAddressBook (.KeyID keyID) <;> simp [hs]

/-- Witness of C12 amended: the key hash `[1]` is spendable (mask 4) and its response
has `ismine = true` together with `pubkey` and `iscompressed`; the key hash `[2]` is
watch only (mask 1) and its response has none of the three. -/
theorem validateaddress_keyhash_pubkey_iff_exactly_spendable_witness :
    (∃ ret, validateaddress addrNode false [.str "BXaddress1"] = .ok ret ∧
      ("ismine", Value.bool true) ∈ ret ∧ "pubkey" ∈ fieldNames ret ∧
      "iscompressed" ∈ fieldNames ret) ∧
    (∃ ret, validateaddress addrNode false [.str "BXaddress2"] = .ok ret ∧
      ("ismine", Value.bool true) ∉ ret ∧ "pubkey" ∉ fieldNames ret ∧
      "iscompressed" ∉ fieldNames ret) := by
  constructor
  · obtain ⟨ret, h1, _, _, _, h5, h6⟩ :=
      validateaddress_keyhash_pubkey_iff_exactly_spendable addrNode ownerWallet "BXaddress1" [1]
        (by rfl) (by rfl) (by rfl) (by decide)
    have hi := h5.2 (by decide)
    have h7 := h6 (Or.inl (by decide))
    exact ⟨ret, h1, hi, h7.1.2 hi, h7.2.2 hi⟩
  · obtain ⟨ret, h1, _, _, _, h5, h6⟩ :=
      validateaddress_keyhash_pubkey_iff_exactly_spendable addrNode ownerWallet "BXaddress2" [2]
        (by rfl) (by rfl) (by rfl) (by decide)
    have hi : ("ismine", Value.bool true) ∉ ret := fun h => absurd (h5.1 h) (by decide)
    have h7 := h6 (Or.inr (by decide))
    exact ⟨ret, h1, hi, fun h => hi (h7.1.1 h), fun h => hi (h7.2.1 h)⟩

/-! ## Further claims on `gettradingdata` -/

/-- C13: a negative `maxBlocks` is not rejected.  The count of blocks is the value
modulo 2^32, which for a negative `n` (not below -2^32, so for every negative `int`) is
`n + 2^32`: the call is accepted and the blocks handed to `ReadBlockFromDisk` are the
first `n + 2^32` of the walk at most.  With `maxBlocks = -1` the bound is `2^32 - 1`, the
one of the call without parameter, and the two calls return the same records. -/
theorem gettradingdata_negative_maxBlocks (env : ChainEnv) (n : Int) (hneg : n < 0)
    (hlo : -4294967296 ≤ n) :
    countOfBlocksParam [.int n] = .ok (n % 4294967296).toNat ∧
    (∃ st, gettradingdataScan env false [.int n] = .ok st ∧
      gettradingdata env false [.int n] = .ok st.records ∧
      st.reads = walkOrder env.chainTip.GetBlockTime env.chainTip (n + 4294967296).toNat ∧
      (st.reads.length : Int) ≤ n + 4294967296) ∧
    gettradingdata env false [.int (-1)] = gettradingdata env false [] ∧
    gettradingdataScan env false [.int (-1)] = gettradingdataScan env false [] := by
  have hmod : n % 4294967296 = n + 4294967296 := by omega
  have hs := gettradingdataScan_accepted env (some n)
  have hg := gettradingdata_accepted env (some n)
  simp only [paramsOf, blockBound, hmod] at hs hg
  refine ⟨?_, ⟨_, hs, hg, rfl, ?_⟩, ?_, ?_⟩
  · simp [countOfBlocksParam, RPCTypeCheck, RPCTypeCheckFrom, Value.type, Value.get_int,
      toUint32_toInt32]
  · have := walkOrder_length env.chainTip.GetBlockTime env.chainTip (n + 4294967296).toNat
    simp only
    omega
  · have h1 := gettradingdata_accepted env (some (-1))
    have h2 := gettradingdata_accepted env none
    simp only [paramsOf] at h1 h2
    rw [h1, h2]
    rfl
  · have h1 := gettradingdataScan_accepted env (some (-1))
    have h2 := gettradingdataScan_accepted env none
    simp only [paramsOf] at h1 h2
    rw [h1, h2]
    rfl

/-- Witness of C13: `maxBlocks = -3` on the sample chain. -/
theorem gettradingdata_negative_maxBlocks_witness :
    ∃ st, gettradingdataScan chainNode false [.int (-3)] = .ok st ∧
      gettradingdata chainNode false [.int (-3)] = .ok st.records ∧
      st.reads = walkOrder chainNode.chainTip.GetBlockTime chainNode.chainTip
        ((-3 : Int) + 4294967296).toNat ∧
      (st.reads.length : Int) ≤ -3 + 4294967296 :=
  (gettradingdata_negative_maxBlocks chainNode (-3) (by decide) (by decide)).2.1

theorem validRecord_some (env : ChainEnv) (timestamp : Int) (tx : CTransaction) (r : Object)
    (h : validRecord env timestamp tx = some r) :
    ∃ fromCurrency fromAmount toCurrency toAmount xid snode_pubkey,
      env.TxOutToCurrencyPair tx.vout
        = (.Valid fromCurrency fromAmount toCurrency toAmount xid, snode_pubkey) ∧
      r = [("timestamp", .int timestamp), ("txid", .str tx.hashHex),
           ("to", .str snode_pubkey), ("xid", .str xid), ("from", .str fromCurrency),
           ("fromAmount", .real fromAmount), ("to", .str toCurrency),
           ("toAmount", .real toAmount)] := by
  unfold validRecord at h
  split at h
  · rename_i f fa t ta x sn heq
    cases h
    exact ⟨f, fa, t, ta, x, sn, heq, rfl⟩
  · cases h

theorem mem_concatRecords (env : ChainEnv) (blocks : List CBlockIndex) (r : Object)
    (h : r ∈ concatRecords env blocks) :
    ∃ timestamp tx, validRecord env timestamp tx = some r := by
  induction blocks with
  | nil => simp [concatRecords] at h
  | cons b bs ih =>
    simp only [concatRecords, List.mem_append] at h
    rcases h with h | h
    · unfold blockValidRecords at h
      split at h
      · simp at h
      · rename_i block _
        obtain ⟨tx, _, htx⟩ := List.mem_filterMap.1 h
        exact ⟨block.GetBlockTime, tx, htx⟩
    · exact ih h

/-- C14: every record the call emits for a `Valid` trade is the ordered list of the
eight pairs named timestamp, txid, to, xid, from, fromAmount, to, toAmount.  The name
"to" occurs twice, first with the key written to `snode_pubkey` and then with the
destination currency, so the field names of the record are not pairwise distinct.
Every record of an accepted call is such a record, and the switch appends exactly this
record for a `Valid` pair whatever `showErrors` is. -/
theorem gettradingdata_valid_record_fields (env : ChainEnv) (maxBlocks : Option Int) :
    (∃ records, gettradingdata env false (paramsOf maxBlocks) = .ok records ∧
      ∀ r ∈ records, ∃ (timestamp : Int) (tx : CTransaction) (fromCurrency : String)
          (fromAmount : Int) (toCurrency : String) (toAmount : Int) (xid snode_pubkey : String),
        env.TxOutToCurrencyPair tx.vout
          = (.Valid fromCurrency fromAmount toCurrency toAmount xid, snode_pubkey) ∧
        r = [("timestamp", .int timestamp), ("txid", .str tx.hashHex),
             ("to", .str snode_pubkey), ("xid", .str xid), ("from", .str fromCurrency),
             ("fromAmount", .real fromAmount), ("to", .str toCurrency),
             ("toAmount", .real toAmount)] ∧
        fieldNames r
          = ["timestamp", "txid", "to", "xid", "from", "fromAmount", "to", "toAmount"] ∧
        r.length = 8 ∧ ¬ (fieldNames r).Nodup) ∧
    (∀ (showErrors : Bool) (timestamp : Int) (tx : CTransaction) (fromCurrency : String)
        (fromAmount : Int) (toCurrency : String) (toAmount : Int) (xid snode_pubkey : String),
      env.TxOutToCurrencyPair tx.vout
        = (.Valid fromCurrency fromAmount toCurrency toAmount xid, snode_pubkey) →
      recordsOfTx env showErrors timestamp tx
        = [[("timestamp", .int timestamp), ("txid", .str tx.hashHex),
            ("to", .str snode_pubkey), ("xid", .str xid), ("from", .str fromCurrency),
            ("fromAmount", .real fromAmount), ("to", .str toCurrency),
            ("toAmount", .real toAmount)]]) := by
  constructor
  · refine ⟨_, gettradingdata_accepted env maxBlocks, ?_⟩
    intro r hr
    obtain ⟨timestamp, tx, hv⟩ := mem_concatRecords env _ r hr
    obtain ⟨f, fa, t, ta, x, sn, heq, rfl⟩ := validRecord_some env timestamp tx r hv
    refine ⟨timestamp, tx, f, fa, t, ta, x, sn, heq, rfl, rfl, rfl, ?_⟩
    show ¬ (["timestamp", "txid", "to", "xid", "from", "fromAmount", "to", "toAmount"] :
      List String).Nodup
    decide
  · intro showErrors timestamp tx f fa t ta x sn heq
    simp [recordsOfTx, heq]

/-- Witness of C14: the record of the sample trade, with errors shown or not. -/
theorem gettradingdata_valid_record_fields_witness :
    recordsOfTx chainNode true 9999000 tradeTx
      = [[("timestamp", .int 9999000), ("txid", .str "aa01"), ("to", .str "snodekey"),
          ("xid", .str "swap1"), ("from", .str "BLOCK"), ("fromAmount", .real 100),
          ("to", .str "LTC"), ("toAmount", .real 5)]] :=
  (gettradingdata_valid_record_fields chainNode none).2 true 9999000 tradeTx
    "BLOCK" 100 "LTC" 5 "swap1" "snodekey" (by rfl)


end RpcMisc
